import Mathlib

/-!
# MoneroRequest-Rust: a shallow embedding and verification

This file embeds the `MoneroRequest` crate (src/lib.rs): the record type,
the in-place validator `MoneroRequest::Validate`, the helper
`GenRandomPaymentID`, and the pipeline `EncodePaymentRequest`
(validate, JSON-serialize, compress, base64, tag).  Rust's `&mut self`
validator is embedded as explicit state passing: `ValidateSt` returns the
record as it stands at the point of return together with the error, so that
mutation on error paths is observable.  The two ambient effects of the code,
`rand::thread_rng` and `chrono::Utc::now`, are embedded as an explicit
environment `Env`.

External crates are embedded as follows.
* `serde_json::to_string`: implemented concretely (`jsonSerialize`), with
  serde's exact escaping rules and field order.
* `flate2::GzEncoder` (and its inverse, needed by the spec's decode): the
  DEFLATE bit-stream itself is outside the scope of this development, so the
  compressor is modelled from the spec as an invertible byte-stream codec
  (`deflate`/`inflate`) satisfying the contract the spec assigns to it
  (deterministic, inflate is its exact left inverse, bytes are 8-bit).
* `chrono`: modelled from the spec as a canonicalizing parser
  (`chronoParseRender`) that accepts canonical UTC text and re-renders it
  unchanged; `Utc::now().to_string()` is the `now` field of `Env`, which is
  always canonical text.
* `url::Url::parse` / `cannot_be_a_base`: modelled from the spec as a
  scheme-verifying parser (`urlParse?`).
* `regex` for `[\d,.]+`: `is_match` of that pattern holds iff some character
  of the haystack belongs to the class (`isAmountChar`).  The source builds
  the pattern with `Regex::new(r"(?m)[\d,.]+")` — default Unicode mode, no
  `(?-u)` — so `\d` is the crate's Unicode class `\p{Nd}` (Decimal_Number),
  embedded here as the `Nd` ranges of the crate's vendored Unicode 15.0
  tables (`ndRanges`/`isUnicodeNd`), not merely ASCII `0`-`9`.

Rust `str::len` is byte length, so the validator's length checks go through
`utf8Len`, the UTF-8 byte count of a Lean `String`.  The two `unwrap` calls
of the source (first wallet character; indexing the hex alphabet) are
embedded as `Option` matches whose `none` branch produces the distinguished
error `MRErr.Panic`, so that panic-freedom is a provable statement.

`DecodePaymentRequest` in the source is an empty stub; the decoder proved
against here is modelled from the spec (§4.3 of the design document):
tag/version split, base64 decode, inflate, JSON parse, re-validate.
-/

/-! ## Character classes and basic string measures -/

/-- UTF-8 byte width of one scalar value, as Rust `String` stores it. -/
def utf8Size (c : Char) : Nat :=
  if c.toNat < 0x80 then 1
  else if c.toNat < 0x800 then 2
  else if c.toNat < 0x10000 then 3
  else 4

/-- Rust `str::len`: the UTF-8 byte length of the string. -/
def utf8Len (s : String) : Nat := (s.data.map utf8Size).sum

/-- The wallet-character check of `Validate`: `'0'..='9' | 'A'..='Z' | 'a'..='z'`. -/
def isWalletChar (c : Char) : Bool :=
  ('0' ≤ c && c ≤ '9') || ('A' ≤ c && c ≤ 'Z') || ('a' ≤ c && c ≤ 'z')

/-- The PaymentID-character check of `Validate`: `'0'..='9' | 'a'..='f'`. -/
def isHexLower (c : Char) : Bool :=
  ('0' ≤ c && c ≤ '9') || ('a' ≤ c && c ≤ 'f')

/-- Modelled from the regex crate: in the crate's default Unicode mode (the
source uses `Regex::new(r"(?m)[\d,.]+")`, with no `(?-u)` flag) the class
`\d` is the Unicode general category `Nd` (Decimal_Number), `\p{Nd}`.
These are the `Nd` ranges of the crate's vendored Unicode 15.0 tables:
64 ranges, 680 scalar values. -/
def ndRanges : List (Nat × Nat) :=
  [(0x0030, 0x0039), (0x0660, 0x0669), (0x06F0, 0x06F9), (0x07C0, 0x07C9),
   (0x0966, 0x096F), (0x09E6, 0x09EF), (0x0A66, 0x0A6F), (0x0AE6, 0x0AEF),
   (0x0B66, 0x0B6F), (0x0BE6, 0x0BEF), (0x0C66, 0x0C6F), (0x0CE6, 0x0CEF),
   (0x0D66, 0x0D6F), (0x0DE6, 0x0DEF), (0x0E50, 0x0E59), (0x0ED0, 0x0ED9),
   (0x0F20, 0x0F29), (0x1040, 0x1049), (0x1090, 0x1099), (0x17E0, 0x17E9),
   (0x1810, 0x1819), (0x1946, 0x194F), (0x19D0, 0x19D9), (0x1A80, 0x1A89),
   (0x1A90, 0x1A99), (0x1B50, 0x1B59), (0x1BB0, 0x1BB9), (0x1C40, 0x1C49),
   (0x1C50, 0x1C59), (0xA620, 0xA629), (0xA8D0, 0xA8D9), (0xA900, 0xA909),
   (0xA9D0, 0xA9D9), (0xA9F0, 0xA9F9), (0xAA50, 0xAA59), (0xABF0, 0xABF9),
   (0xFF10, 0xFF19), (0x104A0, 0x104A9), (0x10D30, 0x10D39),
   (0x11066, 0x1106F), (0x110F0, 0x110F9), (0x11136, 0x1113F),
   (0x111D0, 0x111D9), (0x112F0, 0x112F9), (0x11450, 0x11459),
   (0x114D0, 0x114D9), (0x11650, 0x11659), (0x116C0, 0x116C9),
   (0x11730, 0x11739), (0x118E0, 0x118E9), (0x11950, 0x11959),
   (0x11C50, 0x11C59), (0x11D50, 0x11D59), (0x11DA0, 0x11DA9),
   (0x11F50, 0x11F59), (0x16A60, 0x16A69), (0x16AC0, 0x16AC9),
   (0x16B50, 0x16B59), (0x1D7CE, 0x1D7FF), (0x1E140, 0x1E149),
   (0x1E2F0, 0x1E2F9), (0x1E4F0, 0x1E4F9), (0x1E950, 0x1E959),
   (0x1FBF0, 0x1FBF9)]

/-- One character of the Unicode class `\p{Nd}` — the regex crate's `\d`. -/
def isUnicodeNd (c : Char) : Bool :=
  ndRanges.any fun p => decide (p.1 ≤ c.toNat ∧ c.toNat ≤ p.2)

/-- One character of the class of the Amount regex `[\d,.]+`: a Unicode
decimal digit (`\p{Nd}`), a comma or a period.  `is_match` of that pattern
holds iff at least one character of the haystack belongs to this class. -/
def isAmountChar (c : Char) : Bool :=
  isUnicodeNd c || c = ',' || c = '.'

/-! ## chrono (modelled) -/

/-- Modelled from the spec: the canonical UTC textual form produced by
chrono's rendering of a `DateTime<Utc>` — `YYYY-MM-DD HH:MM:SS UTC`. -/
def isCanonicalDate (s : String) : Bool :=
  match s.data with
  | [y1, y2, y3, y4, '-', m1, m2, '-', d1, d2, ' ',
     h1, h2, ':', n1, n2, ':', e1, e2, ' ', 'U', 'T', 'C'] =>
    y1.isDigit && y2.isDigit && y3.isDigit && y4.isDigit &&
    m1.isDigit && m2.isDigit && d1.isDigit && d2.isDigit &&
    h1.isDigit && h2.isDigit && n1.isDigit && n2.isDigit &&
    e1.isDigit && e2.isDigit
  | _ => false

/-- Modelled from the spec: `s.parse::<DateTime<Utc>>()` followed by
`to_string()` — parse a date-time and re-render it in canonical UTC textual
form.  The model accepts exactly the canonical form and re-renders it
unchanged (parsing then rendering is the identity on canonical text). -/
def chronoParseRender (s : String) : Option String :=
  if isCanonicalDate s then some s else none

/-! ## GenRandomPaymentID -/

/-- The alphabet `"0123456789abcdef"` of `GenRandomPaymentID`. -/
def hexChars : String := "0123456789abcdef"

/-- `GenRandomPaymentID`, with the random generator made explicit
(`rand::gen_range(0..=15)` is a supply of values in `Fin 16`) and the
`unwrap` on `HEXChars.chars().nth(..)` embedded as `Option`: `none` is the
panic case. -/
def GenRandomPaymentID? (rng : Nat → Fin 16) : Option String :=
  ((List.range 16).mapM (fun i => hexChars.data.get? (rng i).val)).map
    (fun l => ⟨l⟩)

/-- Total wrapper of `GenRandomPaymentID?` used inside the validator. -/
def GenRandomPaymentID (rng : Nat → Fin 16) : String :=
  (GenRandomPaymentID? rng).getD ""

/-! ## The record, the environment and the error taxonomy -/

/-- `struct MoneroRequest`, field for field (a Rust `u8` is `Fin 256`). -/
structure MoneroRequest where
  CustomLabel : String
  SellersWallet : String
  Currency : String
  Amount : String
  PaymentID : String
  StartDate : String
  DaysPerBillingCycle : Fin 256
  NumberOfPayments : Fin 256
  ChangeIndicatorURL : String
  Version : String
deriving DecidableEq, Repr

/-- The ambient effects of the crate: `Utc::now().to_string()` (always
canonical text, as chrono renders it) and `thread_rng` (a supply of values
in `0..=15` for `gen_range`). -/
structure Env where
  now : String
  nowCanonical : isCanonicalDate now = true
  rng : Nat → Fin 16

/-- `enum MoneroRequestError`, plus `Panic` (a reached `unwrap` on `None`)
and the decode-side errors the spec's §4.3 prescribes for the decoder. -/
inductive MRErr where
  | InvalidInput (msg : String)
  | SerdeError
  | ChronoError
  | UrlError
  | GZipError (msg : String)
  | Panic
  | BadEnvelope
  | BadEncoding
  | BadCompression
  | BadPayload
deriving DecidableEq, Repr

/-! ## The validator, stage by stage -/

/-- Rule 1: default the label.  Mutates, never fails. -/
def stepLabel (r : MoneroRequest) : MoneroRequest :=
  if utf8Len r.CustomLabel = 0 then
    { r with CustomLabel := "Monero Payment Request" } else r

/-- Rule 2: the wallet checks (length, first character, character class).
Read-only.  The `unwrap` taking the first character is the `none` branch. -/
def stepWallet (r : MoneroRequest) : Option MRErr :=
  if utf8Len r.SellersWallet = 0 then
    some (.InvalidInput "No seller wallet specified.")
  else if utf8Len r.SellersWallet = 95 ∨ utf8Len r.SellersWallet = 106 then
    match r.SellersWallet.data.head? with
    | none => some .Panic
    | some fc =>
      if fc ≠ '4' ∧ fc ≠ '8' then
        some (.InvalidInput "Invalid wallet address. Doesnt start with 4 or 8.")
      else if r.SellersWallet.data.all isWalletChar then none
      else some (.InvalidInput "Invalid character in wallet address.")
  else some (.InvalidInput "Incorrect seller wallet address length.")

/-- The character loop over `self.PaymentID` (runs after any regeneration). -/
def pidCharCheck (r : MoneroRequest) : Option MRErr :=
  if r.PaymentID.data.all isHexLower then none
  else some (.InvalidInput "Invalid character in PaymentID.")

/-- Rule 3: PaymentID — empty is regenerated (a panic inside the generator
propagates), wrong length is an error, then the character loop. -/
def stepPaymentID (env : Env) (r : MoneroRequest) :
    MoneroRequest × Option MRErr :=
  if utf8Len r.PaymentID = 0 then
    match GenRandomPaymentID? env.rng with
    | none => (r, some .Panic)
    | some pid =>
      let r2 := { r with PaymentID := pid }
      (r2, pidCharCheck r2)
  else if utf8Len r.PaymentID = 16 then (r, pidCharCheck r)
  else (r, some (.InvalidInput "Invalid PaymentID length."))

/-- Rule 4: StartDate — empty becomes `Utc::now().to_string()`, otherwise
parse and re-render (chrono), failure is `ChronoError`. -/
def stepStartDate (env : Env) (r : MoneroRequest) :
    MoneroRequest × Option MRErr :=
  if utf8Len r.StartDate = 0 then ({ r with StartDate := env.now }, none)
  else
    match chronoParseRender r.StartDate with
    | some d => ({ r with StartDate := d }, none)
    | none => (r, some .ChronoError)

/-- Rule 5: Currency must be `"USD"` or `"XMR"`. -/
def stepCurrency (r : MoneroRequest) : Option MRErr :=
  if r.Currency = "USD" ∨ r.Currency = "XMR" then none
  else some (.InvalidInput "Invalid Currency.")

/-- Rule 6: the Amount regex `[\d,.]+` must match. -/
def stepAmount (r : MoneroRequest) : Option MRErr :=
  if r.Amount.data.any isAmountChar then none
  else some (.InvalidInput "Invalid Amount.")

/-- Rule 7: DaysPerBillingCycle must be nonzero. -/
def stepDays (r : MoneroRequest) : Option MRErr :=
  if r.DaysPerBillingCycle = (0 : Fin 256) then
    some (.InvalidInput "DaysPerBillingCycle cannot be zero.")
  else none

/-- Break a character list at its first `':'`. -/
def breakColon : List Char → Option (List Char × List Char)
  | [] => none
  | c :: t =>
    if c = ':' then some ([], t)
    else
      match breakColon t with
      | none => none
      | some (a, b) => some (c :: a, b)

/-- A scheme character of a URL. -/
def isSchemeChar (c : Char) : Bool :=
  c.isAlpha || c.isDigit || c = '+' || c = '-' || c = '.'

/-- Modelled from the spec: `url::Url::parse` followed by
`cannot_be_a_base()`.  `none` is a parse error (no scheme); `some b` is a
parsed URL with `b` its `cannot_be_a_base` flag (an opaque path, i.e. no
`//` authority after the scheme). -/
def urlParse? (s : String) : Option Bool :=
  match breakColon s.data with
  | none => none
  | some (scheme, rest) =>
    if scheme ≠ [] ∧ (scheme.head?.getD ' ').isAlpha ∧
        scheme.all isSchemeChar then
      some (decide (rest.take 2 ≠ ['/', '/']))
    else none

/-- Rule 9: ChangeIndicatorURL — empty is allowed, otherwise it must parse
and be usable as a base. -/
def stepURL (r : MoneroRequest) : Option MRErr :=
  if utf8Len r.ChangeIndicatorURL > 0 then
    match urlParse? r.ChangeIndicatorURL with
    | none => some .UrlError
    | some cbb =>
      if cbb then some (.InvalidInput "ChangeIndicatorURL is an invalid URL.")
      else none
  else none

/-- Rule 10: Version — empty becomes `"1"`, `"1"` passes, anything else is
an error. -/
def stepVersion (r : MoneroRequest) : MoneroRequest × Option MRErr :=
  match r.Version with
  | "" => ({ r with Version := "1" }, none)
  | "1" => (r, none)
  | _ => (r, some (.InvalidInput "Unsupported version."))

/-- Rules 5-10 of `Validate`, from the Currency rule on. -/
def ValidateTail2 (r3 : MoneroRequest) : MoneroRequest × Option MRErr :=
  match stepCurrency r3 with
  | some e => (r3, some e)
  | none =>
    match stepAmount r3 with
    | some e => (r3, some e)
    | none =>
      match stepDays r3 with
      | some e => (r3, some e)
      | none =>
        match stepURL r3 with
        | some e => (r3, some e)
        | none => stepVersion r3

/-- Rules 4-10 of `Validate`, from the StartDate rule on. -/
def ValidateTail (env : Env) (r2 : MoneroRequest) :
    MoneroRequest × Option MRErr :=
  match stepStartDate env r2 with
  | (r3, some e) => (r3, some e)
  | (r3, none) => ValidateTail2 r3

/-- `MoneroRequest::Validate`, as explicit state passing: the returned
record is `self` as it stands when the function returns (also on error
paths, where earlier rules may already have written defaults). -/
def ValidateSt (env : Env) (r0 : MoneroRequest) :
    MoneroRequest × Option MRErr :=
  let r1 := stepLabel r0
  match stepWallet r1 with
  | some e => (r1, some e)
  | none =>
    match stepPaymentID env r1 with
    | (r2, some e) => (r2, some e)
    | (r2, none) => ValidateTail env r2

/-- `Validate` as the caller sees it: `Ok(())` leaves the normalized record,
an error discards it (in `EncodePaymentRequest` the record was moved in). -/
def ValidateF (env : Env) (r : MoneroRequest) : Except MRErr MoneroRequest :=
  match ValidateSt env r with
  | (rv, none) => .ok rv
  | (_, some e) => .error e

/-! ## The compressor (modelled) -/

/-- Modelled from the spec: the byte serialization of one scalar value used
by the modelled compressor (three bytes, little-endian base 256). -/
def charBytes (c : Char) : List Nat :=
  [c.toNat % 256, c.toNat / 256 % 256, c.toNat / 65536]

/-- Modelled from the spec: `flate2::GzEncoder` at the default level over
the UTF-8 bytes of the text — embedded as a deterministic, invertible
byte-stream codec (the DEFLATE bit-stream itself is out of scope; the spec
only requires determinism and exact invertibility of the compressor). -/
def deflate (s : String) : List Nat := s.data.flatMap charBytes

/-- Modelled from the spec: the inverse decompressor; fails on a byte
stream the compressor cannot have produced. -/
def inflate : List Nat → Option (List Char)
  | [] => some []
  | b0 :: b1 :: b2 :: rest =>
    let n := b0 + 256 * b1 + 65536 * b2
    if n.isValidChar then
      match inflate rest with
      | some cs => some (Char.ofNat n :: cs)
      | none => none
    else none
  | _ => none

/-! ## Base64 (standard alphabet, padded) -/

/-- The standard base64 alphabet. -/
def b64Alphabet : List Char :=
  "ABCDEFGHIJKLMNOPQRSTUVWXYZabcdefghijklmnopqrstuvwxyz0123456789+/".data

/-- The base64 character of a 6-bit value. -/
def b64c (n : Nat) : Char := b64Alphabet.getD n 'A'

/-- The 6-bit value of a base64 character. -/
def b64v (c : Char) : Option Nat := b64Alphabet.indexOf? c

/-- `base64::engine::general_purpose::STANDARD.encode`: 3 bytes to 4
characters, `'='`-padded tail. -/
def b64encode : List Nat → List Char
  | [] => []
  | [b1] => [b64c (b1 / 4), b64c (b1 % 4 * 16), '=', '=']
  | [b1, b2] => [b64c (b1 / 4), b64c (b1 % 4 * 16 + b2 / 16),
                 b64c (b2 % 16 * 4), '=']
  | b1 :: b2 :: b3 :: rest =>
    b64c (b1 / 4) :: b64c (b1 % 4 * 16 + b2 / 16) ::
    b64c (b2 % 16 * 4 + b3 / 64) :: b64c (b3 % 64) :: b64encode rest

/-- Standard base64 decoding (groups of four, `'='` padding at the end
only). -/
def b64decode : List Char → Option (List Nat)
  | [] => some []
  | c1 :: c2 :: c3 :: c4 :: rest =>
    match b64v c1, b64v c2 with
    | some v1, some v2 =>
      if c3 = '=' then
        if c4 = '=' ∧ rest = [] then some [v1 * 4 + v2 / 16] else none
      else
        match b64v c3 with
        | none => none
        | some v3 =>
          if c4 = '=' then
            if rest = [] then
              some [v1 * 4 + v2 / 16, v2 % 16 * 16 + v3 / 4]
            else none
          else
            match b64v c4 with
            | none => none
            | some v4 =>
              match b64decode rest with
              | none => none
              | some bs =>
                some ((v1 * 4 + v2 / 16) :: (v2 % 16 * 16 + v3 / 4) ::
                      (v3 % 4 * 64 + v4) :: bs)
    | _, _ => none
  | _ => none

/-! ## JSON (serde_json) -/

/-- serde_json's escaping of one character inside a string literal:
`\"`, `\\`, the five short control escapes, `\u00XX` (lowercase hex) for
the remaining control characters, everything else verbatim. -/
def escChar (c : Char) : List Char :=
  if c = '"' then ['\\', '"']
  else if c = '\\' then ['\\', '\\']
  else if c = '\x08' then ['\\', 'b']
  else if c = '\x09' then ['\\', 't']
  else if c = '\x0a' then ['\\', 'n']
  else if c = '\x0c' then ['\\', 'f']
  else if c = '\x0d' then ['\\', 'r']
  else if c.toNat < 32 then
    ['\\', 'u', '0', '0',
     hexChars.data.getD (c.toNat / 16) '0',
     hexChars.data.getD (c.toNat % 16) '0']
  else [c]

/-- A JSON string literal: quotes around the escaped characters. -/
def quoteStr (s : String) : List Char :=
  '"' :: s.data.flatMap escChar ++ ['"']

/-- The decimal digit character of a value below ten. -/
def decDigit (n : Nat) : Char := Char.ofNat (48 + n)

/-- serde_json's rendering of a `u8`: minimal decimal digits. -/
def renderU8 (n : Fin 256) : List Char :=
  if n.val < 10 then [decDigit n.val]
  else if n.val < 100 then [decDigit (n.val / 10), decDigit (n.val % 10)]
  else [decDigit (n.val / 100), decDigit (n.val / 10 % 10),
        decDigit (n.val % 10)]

/-- `serde_json::to_string(&Request)`: the object with the ten fields in
declaration order, strings escaped, `u8` fields as decimal numbers. -/
def jsonSerialize (r : MoneroRequest) : String :=
  ⟨"\x7b\"CustomLabel\":".data ++ quoteStr r.CustomLabel ++
   ",\"SellersWallet\":".data ++ quoteStr r.SellersWallet ++
   ",\"Currency\":".data ++ quoteStr r.Currency ++
   ",\"Amount\":".data ++ quoteStr r.Amount ++
   ",\"PaymentID\":".data ++ quoteStr r.PaymentID ++
   ",\"StartDate\":".data ++ quoteStr r.StartDate ++
   ",\"DaysPerBillingCycle\":".data ++ renderU8 r.DaysPerBillingCycle ++
   ",\"NumberOfPayments\":".data ++ renderU8 r.NumberOfPayments ++
   ",\"ChangeIndicatorURL\":".data ++ quoteStr r.ChangeIndicatorURL ++
   ",\"Version\":".data ++ quoteStr r.Version ++ "\x7d".data⟩

/-! ## EncodePaymentRequest -/

/-- `EncodePaymentRequest`: validate (an error is returned as-is), then
JSON-serialize, compress, base64, and prepend the `monero-request:1:` tag.
(For this record type `serde_json::to_string` cannot fail, and the modelled
compressor's write/finish never report an I/O fault, so the `SerdeError`
and `GZipError` branches of the source are not reachable in the model.) -/
def EncodePaymentRequest (env : Env) (r : MoneroRequest) :
    Except MRErr String :=
  match ValidateF env r with
  | .error e => .error e
  | .ok rv =>
    .ok ("monero-request:1:" ++ ⟨b64encode (deflate (jsonSerialize rv))⟩)

/-! ## The decoder (modelled from the spec; the source `DecodePaymentRequest`
is an empty stub) -/

/-- Consume an expected literal from the front of the input. -/
def expects : List Char → List Char → Option (List Char)
  | [], l => some l
  | _ :: _, [] => none
  | p :: ps, c :: cs => if c = p then expects ps cs else none

/-- The value of one hexadecimal digit. -/
def hexVal (c : Char) : Option Nat :=
  if '0' ≤ c ∧ c ≤ '9' then some (c.toNat - 48)
  else if 'a' ≤ c ∧ c ≤ 'f' then some (c.toNat - 87)
  else if 'A' ≤ c ∧ c ≤ 'F' then some (c.toNat - 55)
  else none

/-- Body of a JSON string literal: characters up to the closing quote,
undoing serde's escapes.  Returns the decoded characters and the input
after the closing quote. -/
def parseJStringAux : List Char → Option (List Char × List Char)
  | [] => none
  | c :: rest =>
    if c = '"' then some ([], rest)
    else if c = '\\' then
      match rest with
      | [] => none
      | e :: rest2 =>
        if e = '"' then (parseJStringAux rest2).map (fun p => ('"' :: p.1, p.2))
        else if e = '\\' then
          (parseJStringAux rest2).map (fun p => ('\\' :: p.1, p.2))
        else if e = 'b' then
          (parseJStringAux rest2).map (fun p => ('\x08' :: p.1, p.2))
        else if e = 't' then
          (parseJStringAux rest2).map (fun p => ('\x09' :: p.1, p.2))
        else if e = 'n' then
          (parseJStringAux rest2).map (fun p => ('\x0a' :: p.1, p.2))
        else if e = 'f' then
          (parseJStringAux rest2).map (fun p => ('\x0c' :: p.1, p.2))
        else if e = 'r' then
          (parseJStringAux rest2).map (fun p => ('\x0d' :: p.1, p.2))
        else if e = 'u' then
          match rest2 with
          | h1 :: h2 :: h3 :: h4 :: rest3 =>
            match hexVal h1, hexVal h2, hexVal h3, hexVal h4 with
            | some a, some b, some c2, some d =>
              let n := ((a * 16 + b) * 16 + c2) * 16 + d
              if n.isValidChar then
                (parseJStringAux rest3).map (fun p => (Char.ofNat n :: p.1, p.2))
              else none
            | _, _, _, _ => none
          | _ => none
        else none
    else (parseJStringAux rest).map (fun p => (c :: p.1, p.2))

/-- A JSON string literal: an opening quote, then `parseJStringAux`. -/
def parseQuoted : List Char → Option (String × List Char)
  | '"' :: rest => (parseJStringAux rest).map (fun p => (⟨p.1⟩, p.2))
  | _ => none

/-- A decimal `u8` literal. -/
def parseU8 (l : List Char) : Option (Fin 256 × List Char) :=
  let ds := l.takeWhile Char.isDigit
  if ds = [] then none
  else
    let n := ds.foldl (fun acc c => acc * 10 + (c.toNat - 48)) 0
    if h : n < 256 then some (⟨n, h⟩, l.drop ds.length) else none

/-- One string-valued field: its literal "key" text, then a string literal. -/
def parseStrField (pre : List Char) (l : List Char) :
    Option (String × List Char) :=
  match expects pre l with
  | none => none
  | some l1 => parseQuoted l1

/-- One `u8`-valued field: its literal "key" text, then a decimal literal. -/
def parseU8Field (pre : List Char) (l : List Char) :
    Option (Fin 256 × List Char) :=
  match expects pre l with
  | none => none
  | some l1 => parseU8 l1

/-- The six leading string fields of the object, in declaration order. -/
def parseJsonStrs (l0 : List Char) :
    Option ((String × String × String × String × String × String) ×
      List Char) :=
  match parseStrField "\x7b\"CustomLabel\":".data l0 with
  | none => none
  | some (cl, l1) =>
    match parseStrField ",\"SellersWallet\":".data l1 with
    | none => none
    | some (sw, l2) =>
      match parseStrField ",\"Currency\":".data l2 with
      | none => none
      | some (cur, l3) =>
        match parseStrField ",\"Amount\":".data l3 with
        | none => none
        | some (am, l4) =>
          match parseStrField ",\"PaymentID\":".data l4 with
          | none => none
          | some (pid, l5) =>
            match parseStrField ",\"StartDate\":".data l5 with
            | none => none
            | some (sd, l6) => some ((cl, sw, cur, am, pid, sd), l6)

/-- The four trailing fields of the object and the closing brace. -/
def parseJsonTail (l6 : List Char) :
    Option ((Fin 256 × Fin 256 × String × String) × List Char) :=
  match parseU8Field ",\"DaysPerBillingCycle\":".data l6 with
  | none => none
  | some (days, l7) =>
    match parseU8Field ",\"NumberOfPayments\":".data l7 with
    | none => none
    | some (nop, l8) =>
      match parseStrField ",\"ChangeIndicatorURL\":".data l8 with
      | none => none
      | some (ciu, l9) =>
        match parseStrField ",\"Version\":".data l9 with
        | none => none
        | some (ver, l10) =>
          match expects "\x7d".data l10 with
          | none => none
          | some l11 => some ((days, nop, ciu, ver), l11)

/-- The canonical structured-text (JSON) form of a record, parsed back:
the ten fields in declaration order, full consumption required. -/
def parseJson (l0 : List Char) : Option MoneroRequest :=
  match parseJsonStrs l0 with
  | none => none
  | some ((cl, sw, cur, am, pid, sd), l6) =>
    match parseJsonTail l6 with
    | none => none
    | some ((days, nop, ciu, ver), l11) =>
      if l11 = [] then some ⟨cl, sw, cur, am, pid, sd, days, nop, ciu, ver⟩
      else none

/-- Modelled from the spec (§4.3): `DecodePaymentRequest` — the source body
is a `TODO` stub, so the decoder is the spec's literal inverse chain: split
the tag and version at the first two `':'`, base64-decode, inflate, parse
the JSON payload, and re-run the validator on the parsed record. -/
def DecodePaymentRequest (env : Env) (s : String) :
    Except MRErr MoneroRequest :=
  match breakColon s.data with
  | none => .error .BadEnvelope
  | some (tag, rest1) =>
    match breakColon rest1 with
    | none => .error .BadEnvelope
    | some (ver, payload) =>
      if tag = "monero-request".data ∧ ver = "1".data then
        match b64decode payload with
        | none => .error .BadEncoding
        | some bytes =>
          match inflate bytes with
          | none => .error .BadCompression
          | some chars =>
            match parseJson chars with
            | none => .error .BadPayload
            | some r => ValidateF env r
      else .error .BadEnvelope

/-! ## Helper lemmas: strings and characters -/

lemma utf8Size_pos (c : Char) : 1 ≤ utf8Size c := by
  unfold utf8Size; split <;> [skip; split] <;> [skip; skip; split] <;> omega

lemma utf8Len_nil : utf8Len ⟨[]⟩ = 0 := rfl

lemma utf8Len_eq_zero {s : String} : utf8Len s = 0 ↔ s.data = [] := by
  constructor
  · intro h
    cases hd : s.data with
    | nil => rfl
    | cons c cs =>
      exfalso
      have h1 := utf8Size_pos c
      unfold utf8Len at h
      rw [hd] at h
      simp [List.sum_cons] at h
      omega
  · intro h; unfold utf8Len; rw [h]; rfl

lemma utf8Size_of_ascii {c : Char} (h : c.toNat < 128) : utf8Size c = 1 := by
  unfold utf8Size
  rw [if_pos (by omega)]

lemma utf8Len_list_of_ascii (l : List Char) (h : ∀ c ∈ l, c.toNat < 128) :
    (l.map utf8Size).sum = l.length := by
  induction l with
  | nil => rfl
  | cons c cs ih =>
    simp only [List.map_cons, List.sum_cons, List.length_cons]
    rw [utf8Size_of_ascii (h c (by simp)), ih (fun d hd => h d (by simp [hd]))]
    omega

lemma utf8Len_of_ascii {s : String} (h : ∀ c ∈ s.data, c.toNat < 128) :
    utf8Len s = s.data.length :=
  utf8Len_list_of_ascii s.data h

lemma isHexLower_ascii {c : Char} (h : isHexLower c = true) : c.toNat < 128 := by
  unfold isHexLower at h
  simp only [Bool.or_eq_true, Bool.and_eq_true, decide_eq_true_eq] at h
  rcases h with ⟨_, h2⟩ | ⟨_, h2⟩
  · have : c.toNat ≤ 57 := Char.le_def.mp h2
    omega
  · have : c.toNat ≤ 102 := Char.le_def.mp h2
    omega

lemma isWalletChar_ascii {c : Char} (h : isWalletChar c = true) :
    c.toNat < 128 := by
  unfold isWalletChar at h
  simp only [Bool.or_eq_true, Bool.and_eq_true, decide_eq_true_eq] at h
  rcases h with (⟨_, h2⟩ | ⟨_, h2⟩) | ⟨_, h2⟩
  · have : c.toNat ≤ 57 := Char.le_def.mp h2
    omega
  · have : c.toNat ≤ 90 := Char.le_def.mp h2
    omega
  · have : c.toNat ≤ 122 := Char.le_def.mp h2
    omega

/-! ## Helper lemmas: GenRandomPaymentID -/

lemma hexChars_get_decidable :
    ∀ v : Fin 16, (hexChars.data.get? v.val).isSome = true ∧
      isHexLower ((hexChars.data.get? v.val).getD '0') = true := by
  decide

lemma hexChars_get (v : Fin 16) :
    ∃ c, hexChars.data.get? v.val = some c ∧ isHexLower c = true := by
  obtain ⟨hs, hx⟩ := hexChars_get_decidable v
  obtain ⟨c, hc⟩ := Option.isSome_iff_exists.mp hs
  exact ⟨c, hc, by rwa [hc] at hx⟩

lemma genRandom_mapM (l : List Nat) (rng : Nat → Fin 16) :
    ∃ cs, (l.mapM (fun i => hexChars.data.get? (rng i).val)) = some cs ∧
      cs.length = l.length ∧ ∀ c ∈ cs, isHexLower c = true := by
  induction l with
  | nil => exact ⟨[], rfl, rfl, by simp⟩
  | cons a t ih =>
    obtain ⟨cs, hcs, hlen, hhex⟩ := ih
    obtain ⟨c, hc, hx⟩ := hexChars_get (rng a)
    refine ⟨c :: cs, ?_, by simp [hlen], ?_⟩
    · rw [List.mapM_cons, hc, hcs]; rfl
    · intro d hd
      rcases List.mem_cons.mp hd with rfl | hd
      · exact hx
      · exact hhex d hd

/-- `GenRandomPaymentID?` always succeeds, with 16 lowercase-hex characters. -/
lemma genRandomPaymentID_spec (rng : Nat → Fin 16) :
    ∃ s, GenRandomPaymentID? rng = some s ∧ s.data.length = 16 ∧
      ∀ c ∈ s.data, isHexLower c = true := by
  obtain ⟨cs, hcs, hlen, hhex⟩ := genRandom_mapM (List.range 16) rng
  refine ⟨⟨cs⟩, ?_, by simpa using hlen, hhex⟩
  unfold GenRandomPaymentID?
  rw [hcs]
  rfl

lemma genRandomPaymentID_total (rng : Nat → Fin 16) :
    GenRandomPaymentID rng = ((GenRandomPaymentID? rng).getD "") := rfl

lemma genRandomPaymentID_utf8Len (rng : Nat → Fin 16) :
    utf8Len (GenRandomPaymentID rng) = 16 := by
  obtain ⟨s, hs, hlen, hhex⟩ := genRandomPaymentID_spec rng
  rw [genRandomPaymentID_total, hs]
  show utf8Len s = 16
  rw [utf8Len_of_ascii (fun c hc => isHexLower_ascii (hhex c hc)), hlen]

/-! ## Helper lemmas: base64 -/

lemma b64v_b64c : ∀ n < 64, b64v (b64c n) = some n := by decide

lemma b64c_ne_pad : ∀ n < 64, b64c n ≠ '=' := by decide

lemma b64c_ne_colon : ∀ n < 64, b64c n ≠ ':' := by decide

lemma b64c_ascii : ∀ n < 64, (b64c n).toNat < 128 := by decide

lemma b64decode_pad2 {v1 v2 : Nat} (h1 : v1 < 64) (h2 : v2 < 64) :
    b64decode [b64c v1, b64c v2, '=', '='] = some [v1 * 4 + v2 / 16] := by
  unfold b64decode
  rw [b64v_b64c _ h1, b64v_b64c _ h2]
  simp

lemma b64decode_pad1 {v1 v2 v3 : Nat} (h1 : v1 < 64) (h2 : v2 < 64)
    (h3 : v3 < 64) :
    b64decode [b64c v1, b64c v2, b64c v3, '='] =
      some [v1 * 4 + v2 / 16, v2 % 16 * 16 + v3 / 4] := by
  unfold b64decode
  rw [b64v_b64c _ h1, b64v_b64c _ h2, b64v_b64c _ h3]
  simp [b64c_ne_pad _ h3]

lemma b64decode_full {v1 v2 v3 v4 : Nat} (rest : List Char) (h1 : v1 < 64)
    (h2 : v2 < 64) (h3 : v3 < 64) (h4 : v4 < 64) :
    b64decode (b64c v1 :: b64c v2 :: b64c v3 :: b64c v4 :: rest) =
      (b64decode rest).map
        (fun bs => (v1 * 4 + v2 / 16) :: (v2 % 16 * 16 + v3 / 4) ::
          (v3 % 4 * 64 + v4) :: bs) := by
  conv_lhs => rw [b64decode]
  rw [b64v_b64c _ h1, b64v_b64c _ h2, b64v_b64c _ h3, b64v_b64c _ h4]
  simp only [if_neg (b64c_ne_pad _ h3), if_neg (b64c_ne_pad _ h4)]
  generalize b64decode rest = o
  cases o <;> rfl

/-- Standard base64 decoding is the exact left inverse of encoding on byte
streams. -/
lemma b64decode_b64encode : ∀ bs : List Nat, (∀ b ∈ bs, b < 256) →
    b64decode (b64encode bs) = some bs := by
  intro bs
  induction bs using b64encode.induct with
  | case1 => intro _; rfl
  | case2 b1 =>
    intro h
    have hb1 : b1 < 256 := h b1 (by simp)
    rw [b64encode, b64decode_pad2 (by omega) (by omega)]
    simp only [Option.some.injEq, List.cons.injEq, and_true]
    omega
  | case3 b1 b2 =>
    intro h
    have hb1 : b1 < 256 := h b1 (by simp)
    have hb2 : b2 < 256 := h b2 (by simp)
    rw [b64encode, b64decode_pad1 (by omega) (by omega) (by omega)]
    simp only [Option.some.injEq, List.cons.injEq, and_true]
    constructor <;> omega
  | case4 b1 b2 b3 rest ih =>
    intro h
    have hb1 : b1 < 256 := h b1 (by simp)
    have hb2 : b2 < 256 := h b2 (by simp)
    have hb3 : b3 < 256 := h b3 (by simp)
    have hrest : ∀ b ∈ rest, b < 256 := fun b hb => h b (by simp [hb])
    rw [b64encode,
      b64decode_full _ (by omega) (by omega) (by omega) (by omega),
      ih hrest]
    simp only [Option.map_some', Option.some.injEq, List.cons.injEq, and_true]
    refine ⟨by omega, by omega, by omega⟩

/-- Every character base64 encoding emits is 7-bit and is not a colon. -/
lemma b64encode_chars : ∀ bs : List Nat, (∀ b ∈ bs, b < 256) →
    ∀ c ∈ b64encode bs, c.toNat < 128 ∧ c ≠ ':' := by
  intro bs
  induction bs using b64encode.induct with
  | case1 => intro _ c hc; simp [b64encode] at hc
  | case2 b1 =>
    intro h c hc
    have hb1 : b1 < 256 := h b1 (by simp)
    rw [b64encode] at hc
    simp only [List.mem_cons, List.not_mem_nil, or_false] at hc
    rcases hc with rfl | rfl | rfl | rfl
    · exact ⟨b64c_ascii _ (by omega), b64c_ne_colon _ (by omega)⟩
    · exact ⟨b64c_ascii _ (by omega), b64c_ne_colon _ (by omega)⟩
    · exact ⟨by decide, by decide⟩
    · exact ⟨by decide, by decide⟩
  | case3 b1 b2 =>
    intro h c hc
    have hb1 : b1 < 256 := h b1 (by simp)
    have hb2 : b2 < 256 := h b2 (by simp)
    rw [b64encode] at hc
    simp only [List.mem_cons, List.not_mem_nil, or_false] at hc
    rcases hc with rfl | rfl | rfl | rfl
    · exact ⟨b64c_ascii _ (by omega), b64c_ne_colon _ (by omega)⟩
    · exact ⟨b64c_ascii _ (by omega), b64c_ne_colon _ (by omega)⟩
    · exact ⟨b64c_ascii _ (by omega), b64c_ne_colon _ (by omega)⟩
    · exact ⟨by decide, by decide⟩
  | case4 b1 b2 b3 rest ih =>
    intro h c hc
    have hb1 : b1 < 256 := h b1 (by simp)
    have hb2 : b2 < 256 := h b2 (by simp)
    have hb3 : b3 < 256 := h b3 (by simp)
    have hrest : ∀ b ∈ rest, b < 256 := fun b hb => h b (by simp [hb])
    rw [b64encode] at hc
    simp only [List.mem_cons] at hc
    rcases hc with rfl | rfl | rfl | rfl | hc
    · exact ⟨b64c_ascii _ (by omega), b64c_ne_colon _ (by omega)⟩
    · exact ⟨b64c_ascii _ (by omega), b64c_ne_colon _ (by omega)⟩
    · exact ⟨b64c_ascii _ (by omega), b64c_ne_colon _ (by omega)⟩
    · exact ⟨b64c_ascii _ (by omega), b64c_ne_colon _ (by omega)⟩
    · exact ih hrest c hc

/-! ## Helper lemmas: the modelled compressor -/

lemma char_valid_nat (c : Char) : Nat.isValidChar c.toNat := c.valid

lemma char_toNat_lt (c : Char) : c.toNat < 1114112 := by
  rcases char_valid_nat c with h | ⟨_, h⟩ <;> omega

lemma charBytes_lt {c : Char} : ∀ b ∈ charBytes c, b < 256 := by
  have := char_toNat_lt c
  intro b hb
  unfold charBytes at hb
  simp only [List.mem_cons, List.not_mem_nil, or_false] at hb
  rcases hb with rfl | rfl | rfl <;> omega

/-- Every byte the modelled compressor emits is 8-bit. -/
lemma deflate_lt (s : String) : ∀ b ∈ deflate s, b < 256 := by
  intro b hb
  unfold deflate at hb
  rw [List.mem_flatMap] at hb
  obtain ⟨c, _, hbc⟩ := hb
  exact charBytes_lt b hbc

lemma inflate_flatMap (l : List Char) :
    inflate (l.flatMap charBytes) = some l := by
  induction l with
  | nil => rfl
  | cons c cs ih =>
    have hlt : c.toNat < 1114112 := char_toNat_lt c
    rw [List.flatMap_cons]
    show inflate (c.toNat % 256 :: c.toNat / 256 % 256 :: c.toNat / 65536 ::
      cs.flatMap charBytes) = some (c :: cs)
    rw [inflate]
    have hn : c.toNat % 256 + 256 * (c.toNat / 256 % 256) +
        65536 * (c.toNat / 65536) = c.toNat := by omega
    simp only [hn, ih]
    rw [if_pos (char_valid_nat c)]
    rw [Char.ofNat_toNat]

/-- The modelled decompressor is the exact left inverse of the modelled
compressor. -/
lemma inflate_deflate (s : String) : inflate (deflate s) = some s.data :=
  inflate_flatMap s.data

/-! ## Helper lemmas: the JSON string escape and its parser -/

lemma expects_append (p rest : List Char) : expects p (p ++ rest) = some rest := by
  induction p with
  | nil => rfl
  | cons c cs ih => simp [expects, ih]

lemma pjs_quote (rest : List Char) :
    parseJStringAux ('"' :: rest) = some ([], rest) := by
  conv_lhs => rw [parseJStringAux.eq_def]
  simp only [Char.reduceEq, reduceIte]

lemma pjs_esc_quote (rest : List Char) :
    parseJStringAux ('\\' :: '"' :: rest) =
      (parseJStringAux rest).map (fun p => ('"' :: p.1, p.2)) := by
  conv_lhs => rw [parseJStringAux.eq_def]
  simp only [Char.reduceEq, reduceIte]

lemma pjs_esc_backslash (rest : List Char) :
    parseJStringAux ('\\' :: '\\' :: rest) =
      (parseJStringAux rest).map (fun p => ('\\' :: p.1, p.2)) := by
  conv_lhs => rw [parseJStringAux.eq_def]
  simp only [Char.reduceEq, reduceIte]

lemma pjs_esc_b (rest : List Char) :
    parseJStringAux ('\\' :: 'b' :: rest) =
      (parseJStringAux rest).map (fun p => ('\x08' :: p.1, p.2)) := by
  conv_lhs => rw [parseJStringAux.eq_def]
  simp only [Char.reduceEq, reduceIte]

lemma pjs_esc_t (rest : List Char) :
    parseJStringAux ('\\' :: 't' :: rest) =
      (parseJStringAux rest).map (fun p => ('\x09' :: p.1, p.2)) := by
  conv_lhs => rw [parseJStringAux.eq_def]
  simp only [Char.reduceEq, reduceIte]

lemma pjs_esc_n (rest : List Char) :
    parseJStringAux ('\\' :: 'n' :: rest) =
      (parseJStringAux rest).map (fun p => ('\x0a' :: p.1, p.2)) := by
  conv_lhs => rw [parseJStringAux.eq_def]
  simp only [Char.reduceEq, reduceIte]

lemma pjs_esc_f (rest : List Char) :
    parseJStringAux ('\\' :: 'f' :: rest) =
      (parseJStringAux rest).map (fun p => ('\x0c' :: p.1, p.2)) := by
  conv_lhs => rw [parseJStringAux.eq_def]
  simp only [Char.reduceEq, reduceIte]

lemma pjs_esc_r (rest : List Char) :
    parseJStringAux ('\\' :: 'r' :: rest) =
      (parseJStringAux rest).map (fun p => ('\x0d' :: p.1, p.2)) := by
  conv_lhs => rw [parseJStringAux.eq_def]
  simp only [Char.reduceEq, reduceIte]

lemma pjs_other {c : Char} (h1 : c ≠ '"') (h2 : c ≠ '\\') (rest : List Char) :
    parseJStringAux (c :: rest) =
      (parseJStringAux rest).map (fun p => (c :: p.1, p.2)) := by
  conv_lhs => rw [parseJStringAux.eq_def]
  simp only [if_neg h1, if_neg h2]

lemma hexVal_hexChars : ∀ v < 16, hexVal (hexChars.data.getD v '0') = some v := by
  decide

lemma pjs_esc_u {a b : Char} {va vb : Nat} (ha : hexVal a = some va)
    (hb : hexVal b = some vb) (hv : Nat.isValidChar (((0 * 16 + 0) * 16 + va) * 16 + vb))
    (rest : List Char) :
    parseJStringAux ('\\' :: 'u' :: '0' :: '0' :: a :: b :: rest) =
      (parseJStringAux rest).map
        (fun p => (Char.ofNat (((0 * 16 + 0) * 16 + va) * 16 + vb) :: p.1, p.2)) := by
  have h0 : hexVal '0' = some 0 := by decide
  conv_lhs => rw [parseJStringAux.eq_def]
  simp only [Char.reduceEq, reduceIte]
  rw [h0, ha, hb]
  simp only [if_pos hv]

/-- The JSON string-body parser undoes serde's escaping exactly. -/
lemma parseJStringAux_round (cs rest : List Char) :
    parseJStringAux (cs.flatMap escChar ++ '"' :: rest) = some (cs, rest) := by
  induction cs with
  | nil => simpa using pjs_quote rest
  | cons c cs ih =>
    rw [List.flatMap_cons, List.append_assoc]
    by_cases hq : c = '"'
    · subst hq
      rw [show escChar '"' = ['\\', '"'] from rfl]
      rw [show (['\\', '"'] : List Char) ++ (cs.flatMap escChar ++ '"' :: rest) =
        '\\' :: '"' :: (cs.flatMap escChar ++ '"' :: rest) from rfl]
      rw [pjs_esc_quote, ih]
      rfl
    by_cases hbs : c = '\\'
    · subst hbs
      rw [show escChar '\\' = ['\\', '\\'] from rfl]
      rw [show (['\\', '\\'] : List Char) ++ (cs.flatMap escChar ++ '"' :: rest) =
        '\\' :: '\\' :: (cs.flatMap escChar ++ '"' :: rest) from rfl]
      rw [pjs_esc_backslash, ih]
      rfl
    by_cases h8 : c = '\x08'
    · subst h8
      rw [show escChar '\x08' = ['\\', 'b'] from rfl]
      rw [show (['\\', 'b'] : List Char) ++ (cs.flatMap escChar ++ '"' :: rest) =
        '\\' :: 'b' :: (cs.flatMap escChar ++ '"' :: rest) from rfl]
      rw [pjs_esc_b, ih]
      rfl
    by_cases h9 : c = '\x09'
    · subst h9
      rw [show escChar '\x09' = ['\\', 't'] from rfl]
      rw [show (['\\', 't'] : List Char) ++ (cs.flatMap escChar ++ '"' :: rest) =
        '\\' :: 't' :: (cs.flatMap escChar ++ '"' :: rest) from rfl]
      rw [pjs_esc_t, ih]
      rfl
    by_cases ha : c = '\x0a'
    · subst ha
      rw [show escChar '\x0a' = ['\\', 'n'] from rfl]
      rw [show (['\\', 'n'] : List Char) ++ (cs.flatMap escChar ++ '"' :: rest) =
        '\\' :: 'n' :: (cs.flatMap escChar ++ '"' :: rest) from rfl]
      rw [pjs_esc_n, ih]
      rfl
    by_cases hcf : c = '\x0c'
    · subst hcf
      rw [show escChar '\x0c' = ['\\', 'f'] from rfl]
      rw [show (['\\', 'f'] : List Char) ++ (cs.flatMap escChar ++ '"' :: rest) =
        '\\' :: 'f' :: (cs.flatMap escChar ++ '"' :: rest) from rfl]
      rw [pjs_esc_f, ih]
      rfl
    by_cases hcr : c = '\x0d'
    · subst hcr
      rw [show escChar '\x0d' = ['\\', 'r'] from rfl]
      rw [show (['\\', 'r'] : List Char) ++ (cs.flatMap escChar ++ '"' :: rest) =
        '\\' :: 'r' :: (cs.flatMap escChar ++ '"' :: rest) from rfl]
      rw [pjs_esc_r, ih]
      rfl
    by_cases h32 : c.toNat < 32
    · have hesc : escChar c = ['\\', 'u', '0', '0',
          hexChars.data.getD (c.toNat / 16) '0',
          hexChars.data.getD (c.toNat % 16) '0'] := by
        unfold escChar
        rw [if_neg hq, if_neg hbs, if_neg h8, if_neg h9, if_neg ha,
          if_neg hcf, if_neg hcr, if_pos h32]
      rw [hesc]
      rw [show (['\\', 'u', '0', '0', hexChars.data.getD (c.toNat / 16) '0',
          hexChars.data.getD (c.toNat % 16) '0'] : List Char) ++
          (cs.flatMap escChar ++ '"' :: rest) =
        '\\' :: 'u' :: '0' :: '0' :: hexChars.data.getD (c.toNat / 16) '0' ::
          hexChars.data.getD (c.toNat % 16) '0' ::
          (cs.flatMap escChar ++ '"' :: rest) from rfl]
      have hn : ((0 * 16 + 0) * 16 + c.toNat / 16) * 16 + c.toNat % 16 =
          c.toNat := by omega
      rw [pjs_esc_u (hexVal_hexChars _ (by omega)) (hexVal_hexChars _ (by omega))
        (by rw [hn]; exact char_valid_nat c), ih]
      simp only [Option.map_some']
      rw [hn, Char.ofNat_toNat]
    · have hesc : escChar c = [c] := by
        unfold escChar
        rw [if_neg hq, if_neg hbs, if_neg h8, if_neg h9, if_neg ha,
          if_neg hcf, if_neg hcr, if_neg h32]
      rw [hesc, List.singleton_append, pjs_other hq hbs, ih]
      rfl

/-- Parsing a serde-escaped string literal returns the original string. -/
lemma parseQuoted_quoteStr (s : String) (rest : List Char) :
    parseQuoted (quoteStr s ++ rest) = some (s, rest) := by
  unfold quoteStr
  simp only [List.cons_append, List.append_assoc, List.singleton_append]
  show (parseJStringAux (s.data.flatMap escChar ++ '"' :: rest)).map
    (fun p => (String.mk p.1, p.2)) = some (s, rest)
  rw [parseJStringAux_round]
  rfl

/-! ## Helper lemmas: u8 rendering and parsing -/

lemma decDigit_isDigit : ∀ k < 10, (decDigit k).isDigit = true := by decide

lemma decDigit_toNat : ∀ k < 10, (decDigit k).toNat = 48 + k := by decide

lemma renderU8_digits (n : Fin 256) : ∀ c ∈ renderU8 n, c.isDigit = true := by
  intro c hc
  unfold renderU8 at hc
  have hn := n.isLt
  split at hc
  · simp only [List.mem_singleton] at hc
    subst hc
    exact decDigit_isDigit _ (by omega)
  · split at hc
    · simp only [List.mem_cons, List.not_mem_nil, or_false] at hc
      rcases hc with rfl | rfl
      · exact decDigit_isDigit _ (by omega)
      · exact decDigit_isDigit _ (by omega)
    · simp only [List.mem_cons, List.not_mem_nil, or_false] at hc
      rcases hc with rfl | rfl | rfl
      · exact decDigit_isDigit _ (by omega)
      · exact decDigit_isDigit _ (by omega)
      · exact decDigit_isDigit _ (by omega)

lemma renderU8_ne_nil (n : Fin 256) : renderU8 n ≠ [] := by
  unfold renderU8
  split
  · simp
  · split <;> simp

lemma renderU8_foldl (n : Fin 256) :
    (renderU8 n).foldl (fun acc c => acc * 10 + (c.toNat - 48)) 0 = n.val := by
  have hn := n.isLt
  unfold renderU8
  split
  · rename_i h1
    simp only [List.foldl_cons, List.foldl_nil]
    rw [decDigit_toNat _ (by omega)]
    omega
  · rename_i h1
    split
    · rename_i h2
      simp only [List.foldl_cons, List.foldl_nil]
      rw [decDigit_toNat _ (by omega), decDigit_toNat _ (by omega)]
      omega
    · rename_i h2
      simp only [List.foldl_cons, List.foldl_nil]
      rw [decDigit_toNat _ (by omega), decDigit_toNat _ (by omega),
        decDigit_toNat _ (by omega)]
      omega

lemma takeWhile_digits_append (ds : List Char)
    (hds : ∀ c ∈ ds, c.isDigit = true) {c : Char} (hc : c.isDigit = false)
    (t : List Char) :
    (ds ++ c :: t).takeWhile Char.isDigit = ds := by
  induction ds with
  | nil => simp [List.takeWhile_cons, hc]
  | cons d ds ih =>
    rw [List.cons_append, List.takeWhile_cons, hds d (by simp)]
    simp only [ite_true]
    rw [ih (fun e he => hds e (by simp [he]))]

/-- Parsing the decimal rendering of a `u8`, followed by a non-digit,
returns the value and leaves the rest untouched. -/
lemma parseU8_round (n : Fin 256) {c : Char} (hc : c.isDigit = false)
    (t : List Char) :
    parseU8 (renderU8 n ++ c :: t) = some (n, c :: t) := by
  unfold parseU8
  rw [takeWhile_digits_append _ (renderU8_digits n) hc]
  rw [if_neg (renderU8_ne_nil n)]
  rw [renderU8_foldl]
  rw [dif_pos n.isLt]
  rw [List.drop_left]

/-! ## Helper lemmas: the JSON object round-trip -/

lemma parseStrField_round (pre : List Char) (s : String) (rest : List Char) :
    parseStrField pre (pre ++ (quoteStr s ++ rest)) = some (s, rest) := by
  unfold parseStrField
  rw [expects_append]
  exact parseQuoted_quoteStr s rest

lemma parseU8Field_round (pre : List Char) (n : Fin 256) {c : Char}
    (hc : c.isDigit = false) (t : List Char) :
    parseU8Field pre (pre ++ (renderU8 n ++ c :: t)) = some (n, c :: t) := by
  unfold parseU8Field
  rw [expects_append]
  exact parseU8_round n hc t

lemma expects_self (p : List Char) : expects p p = some [] := by
  have h := expects_append p []
  rwa [List.append_nil] at h

lemma parseDaysField_round (n : Fin 256) (t : List Char) :
    parseU8Field ",\"DaysPerBillingCycle\":".data
      (",\"DaysPerBillingCycle\":".data ++ (renderU8 n ++
        (",\"NumberOfPayments\":".data ++ t))) =
      some (n, ",\"NumberOfPayments\":".data ++ t) := by
  rw [show (",\"NumberOfPayments\":".data : List Char) ++ t =
    ',' :: ("\"NumberOfPayments\":".data ++ t) from rfl]
  exact parseU8Field_round _ n (by decide) _

lemma parseNopField_round (n : Fin 256) (t : List Char) :
    parseU8Field ",\"NumberOfPayments\":".data
      (",\"NumberOfPayments\":".data ++ (renderU8 n ++
        (",\"ChangeIndicatorURL\":".data ++ t))) =
      some (n, ",\"ChangeIndicatorURL\":".data ++ t) := by
  rw [show (",\"ChangeIndicatorURL\":".data : List Char) ++ t =
    ',' :: ("\"ChangeIndicatorURL\":".data ++ t) from rfl]
  exact parseU8Field_round _ n (by decide) _

lemma parseJsonStrs_round (cl sw cur am pid sd : String) (rest : List Char) :
    parseJsonStrs ("\x7b\"CustomLabel\":".data ++ (quoteStr cl ++
      (",\"SellersWallet\":".data ++ (quoteStr sw ++
      (",\"Currency\":".data ++ (quoteStr cur ++
      (",\"Amount\":".data ++ (quoteStr am ++
      (",\"PaymentID\":".data ++ (quoteStr pid ++
      (",\"StartDate\":".data ++ (quoteStr sd ++ rest)))))))))))) =
    some ((cl, sw, cur, am, pid, sd), rest) := by
  unfold parseJsonStrs
  rw [parseStrField_round]
  simp only []
  rw [parseStrField_round]
  simp only []
  rw [parseStrField_round]
  simp only []
  rw [parseStrField_round]
  simp only []
  rw [parseStrField_round]
  simp only []
  rw [parseStrField_round]

lemma parseJsonTail_round (days nop : Fin 256) (ciu ver : String) :
    parseJsonTail (",\"DaysPerBillingCycle\":".data ++ (renderU8 days ++
      (",\"NumberOfPayments\":".data ++ (renderU8 nop ++
      (",\"ChangeIndicatorURL\":".data ++ (quoteStr ciu ++
      (",\"Version\":".data ++ (quoteStr ver ++ "\x7d".data)))))))) =
    some ((days, nop, ciu, ver), []) := by
  unfold parseJsonTail
  rw [parseDaysField_round]
  simp only []
  rw [parseNopField_round]
  simp only []
  rw [parseStrField_round]
  simp only []
  rw [parseStrField_round]
  simp only []
  rw [expects_self]

/-- Parsing serde's serialization returns the record unchanged: the JSON
stage of decode is the exact left inverse of the JSON stage of encode. -/
lemma parseJson_jsonSerialize (r : MoneroRequest) :
    parseJson (jsonSerialize r).data = some r := by
  obtain ⟨cl, sw, cur, am, pid, sd, days, nop, ciu, ver⟩ := r
  have hdata : (jsonSerialize
      ⟨cl, sw, cur, am, pid, sd, days, nop, ciu, ver⟩).data =
    "\x7b\"CustomLabel\":".data ++ quoteStr cl ++
    ",\"SellersWallet\":".data ++ quoteStr sw ++
    ",\"Currency\":".data ++ quoteStr cur ++
    ",\"Amount\":".data ++ quoteStr am ++
    ",\"PaymentID\":".data ++ quoteStr pid ++
    ",\"StartDate\":".data ++ quoteStr sd ++
    ",\"DaysPerBillingCycle\":".data ++ renderU8 days ++
    ",\"NumberOfPayments\":".data ++ renderU8 nop ++
    ",\"ChangeIndicatorURL\":".data ++ quoteStr ciu ++
    ",\"Version\":".data ++ quoteStr ver ++ "\x7d".data := rfl
  rw [hdata]
  simp only [List.append_assoc]
  unfold parseJson
  rw [parseJsonStrs_round]
  simp only []
  rw [parseJsonTail_round]
  simp

/-! ## Helper lemmas: the envelope split -/

lemma breakColon_append {a : List Char} (ha : ':' ∉ a) (b : List Char) :
    breakColon (a ++ ':' :: b) = some (a, b) := by
  induction a with
  | nil =>
    show breakColon (':' :: b) = some ([], b)
    simp [breakColon]
  | cons c cs ih =>
    have hc : ¬ c = ':' := fun h => ha (by simp [h])
    rw [List.cons_append]
    simp only [breakColon, if_neg hc]
    rw [ih (fun h => ha (by simp [h]))]

/-! ## Helper lemmas: the validator stages -/

lemma stepLabel_frame (r : MoneroRequest) :
    (stepLabel r).SellersWallet = r.SellersWallet ∧
    (stepLabel r).Currency = r.Currency ∧
    (stepLabel r).Amount = r.Amount ∧
    (stepLabel r).PaymentID = r.PaymentID ∧
    (stepLabel r).StartDate = r.StartDate ∧
    (stepLabel r).DaysPerBillingCycle = r.DaysPerBillingCycle ∧
    (stepLabel r).NumberOfPayments = r.NumberOfPayments ∧
    (stepLabel r).ChangeIndicatorURL = r.ChangeIndicatorURL ∧
    (stepLabel r).Version = r.Version := by
  unfold stepLabel
  split <;> exact ⟨rfl, rfl, rfl, rfl, rfl, rfl, rfl, rfl, rfl⟩

lemma stepLabel_label (r : MoneroRequest) :
    utf8Len (stepLabel r).CustomLabel ≠ 0 := by
  unfold stepLabel
  split
  · exact (by decide : utf8Len "Monero Payment Request" ≠ 0)
  · assumption

lemma stepWallet_congr {r q : MoneroRequest}
    (h : r.SellersWallet = q.SellersWallet) : stepWallet r = stepWallet q := by
  unfold stepWallet
  rw [h]

lemma stepWallet_ok {r : MoneroRequest} (h : stepWallet r = none) :
    (utf8Len r.SellersWallet = 95 ∨ utf8Len r.SellersWallet = 106) ∧
    (∃ fc, r.SellersWallet.data.head? = some fc ∧ (fc = '4' ∨ fc = '8')) ∧
    r.SellersWallet.data.all isWalletChar = true := by
  unfold stepWallet at h
  split at h
  · cases h
  · split at h
    · rename_i hlen
      split at h
      · cases h
      · rename_i fc hfc
        split at h
        · cases h
        · rename_i hfc48
          rw [not_and_or, not_not, not_not] at hfc48
          split at h
          · exact ⟨hlen, ⟨fc, hfc, hfc48⟩, by assumption⟩
          · cases h
    · cases h

lemma pidCharCheck_none {r : MoneroRequest} (h : pidCharCheck r = none) :
    r.PaymentID.data.all isHexLower = true := by
  unfold pidCharCheck at h
  split at h
  · assumption
  · cases h

lemma stepPaymentID_ok {env : Env} {r r2 : MoneroRequest}
    (h : stepPaymentID env r = (r2, none)) :
    utf8Len r2.PaymentID = 16 ∧ r2.PaymentID.data.all isHexLower = true ∧
    r2.CustomLabel = r.CustomLabel ∧ r2.SellersWallet = r.SellersWallet ∧
    r2.Currency = r.Currency ∧ r2.Amount = r.Amount ∧
    r2.StartDate = r.StartDate ∧
    r2.DaysPerBillingCycle = r.DaysPerBillingCycle ∧
    r2.NumberOfPayments = r.NumberOfPayments ∧
    r2.ChangeIndicatorURL = r.ChangeIndicatorURL ∧
    r2.Version = r.Version := by
  unfold stepPaymentID at h
  split at h
  · obtain ⟨s, hs, hlen, hhex⟩ := genRandomPaymentID_spec env.rng
    rw [hs] at h
    simp only [Prod.mk.injEq] at h
    obtain ⟨hr2, hch⟩ := h
    subst hr2
    have hall : s.data.all isHexLower = true := by
      rw [List.all_eq_true]
      intro c hc
      exact hhex c hc
    refine ⟨?_, hall, rfl, rfl, rfl, rfl, rfl, rfl, rfl, rfl, rfl⟩
    show utf8Len s = 16
    rw [utf8Len_of_ascii (fun c hc => isHexLower_ascii (hhex c hc)), hlen]
  · split at h
    · rename_i h16
      simp only [Prod.mk.injEq] at h
      obtain ⟨hr2, hch⟩ := h
      subst hr2
      exact ⟨h16, pidCharCheck_none hch, rfl, rfl, rfl, rfl, rfl, rfl,
        rfl, rfl, rfl⟩
    · simp only [Prod.mk.injEq] at h
      cases h.2

lemma chronoParseRender_some {s d : String} (h : chronoParseRender s = some d) :
    d = s ∧ isCanonicalDate s = true := by
  unfold chronoParseRender at h
  split at h
  · cases h
    exact ⟨rfl, by assumption⟩
  · cases h

lemma stepStartDate_ok {env : Env} {r r3 : MoneroRequest}
    (h : stepStartDate env r = (r3, none)) :
    isCanonicalDate r3.StartDate = true ∧
    r3.CustomLabel = r.CustomLabel ∧ r3.SellersWallet = r.SellersWallet ∧
    r3.Currency = r.Currency ∧ r3.Amount = r.Amount ∧
    r3.PaymentID = r.PaymentID ∧
    r3.DaysPerBillingCycle = r.DaysPerBillingCycle ∧
    r3.NumberOfPayments = r.NumberOfPayments ∧
    r3.ChangeIndicatorURL = r.ChangeIndicatorURL ∧
    r3.Version = r.Version := by
  unfold stepStartDate at h
  split at h
  · simp only [Prod.mk.injEq] at h
    obtain ⟨hr3, -⟩ := h
    subst hr3
    exact ⟨env.nowCanonical, rfl, rfl, rfl, rfl, rfl, rfl, rfl, rfl, rfl⟩
  · split at h
    · rename_i d hd
      obtain ⟨rfl, hcan⟩ := chronoParseRender_some hd
      simp only [Prod.mk.injEq] at h
      obtain ⟨hr3, -⟩ := h
      subst hr3
      exact ⟨hcan, rfl, rfl, rfl, rfl, rfl, rfl, rfl, rfl, rfl⟩
    · simp only [Prod.mk.injEq] at h
      cases h.2

lemma stepCurrency_ok {r : MoneroRequest} (h : stepCurrency r = none) :
    r.Currency = "USD" ∨ r.Currency = "XMR" := by
  unfold stepCurrency at h
  split at h
  · assumption
  · cases h

lemma stepAmount_ok {r : MoneroRequest} (h : stepAmount r = none) :
    r.Amount.data.any isAmountChar = true := by
  unfold stepAmount at h
  split at h
  · assumption
  · cases h

lemma stepDays_ok {r : MoneroRequest} (h : stepDays r = none) :
    r.DaysPerBillingCycle ≠ (0 : Fin 256) := by
  unfold stepDays at h
  split at h
  · cases h
  · assumption

lemma stepCurrency_congr {r q : MoneroRequest} (h : r.Currency = q.Currency) :
    stepCurrency r = stepCurrency q := by
  unfold stepCurrency
  rw [h]

lemma stepAmount_congr {r q : MoneroRequest} (h : r.Amount = q.Amount) :
    stepAmount r = stepAmount q := by
  unfold stepAmount
  rw [h]

lemma stepDays_congr {r q : MoneroRequest}
    (h : r.DaysPerBillingCycle = q.DaysPerBillingCycle) :
    stepDays r = stepDays q := by
  unfold stepDays
  rw [h]

lemma stepURL_congr {r q : MoneroRequest}
    (h : r.ChangeIndicatorURL = q.ChangeIndicatorURL) :
    stepURL r = stepURL q := by
  unfold stepURL
  rw [h]

lemma stepVersion_ok {r rv : MoneroRequest} (h : stepVersion r = (rv, none)) :
    rv.Version = "1" ∧
    rv.CustomLabel = r.CustomLabel ∧ rv.SellersWallet = r.SellersWallet ∧
    rv.Currency = r.Currency ∧ rv.Amount = r.Amount ∧
    rv.PaymentID = r.PaymentID ∧ rv.StartDate = r.StartDate ∧
    rv.DaysPerBillingCycle = r.DaysPerBillingCycle ∧
    rv.NumberOfPayments = r.NumberOfPayments ∧
    rv.ChangeIndicatorURL = r.ChangeIndicatorURL := by
  unfold stepVersion at h
  split at h
  · simp only [Prod.mk.injEq] at h
    obtain ⟨hrv, -⟩ := h
    subst hrv
    exact ⟨rfl, rfl, rfl, rfl, rfl, rfl, rfl, rfl, rfl, rfl⟩
  · rename_i hv1
    simp only [Prod.mk.injEq] at h
    obtain ⟨hrv, -⟩ := h
    subst hrv
    exact ⟨hv1, rfl, rfl, rfl, rfl, rfl, rfl, rfl, rfl, rfl⟩
  · simp only [Prod.mk.injEq] at h
    cases h.2

/-- Inversion of a successful validator run: every invariant the source
establishes on the normalized record. -/
lemma ValidateSt_ok {env : Env} {r rv : MoneroRequest}
    (h : ValidateSt env r = (rv, none)) :
    utf8Len rv.CustomLabel ≠ 0 ∧
    stepWallet rv = none ∧
    utf8Len rv.PaymentID = 16 ∧ rv.PaymentID.data.all isHexLower = true ∧
    isCanonicalDate rv.StartDate = true ∧
    (rv.Currency = "USD" ∨ rv.Currency = "XMR") ∧
    rv.Amount.data.any isAmountChar = true ∧
    rv.DaysPerBillingCycle ≠ (0 : Fin 256) ∧
    stepURL rv = none ∧
    rv.Version = "1" := by
  unfold ValidateSt ValidateTail at h
  try unfold ValidateTail2 at h
  simp only [] at h
  rcases hw : stepWallet (stepLabel r) with _ | e <;> rw [hw] at h <;>
    simp only [] at h
  case some => simp at h
  rcases hp : stepPaymentID env (stepLabel r) with ⟨r2, _ | e2⟩ <;>
    rw [hp] at h <;> simp only [] at h
  case mk.some => simp at h
  rcases hd : stepStartDate env r2 with ⟨r3, _ | e3⟩ <;>
    rw [hd] at h <;> simp only [] at h
  case mk.some => simp at h
  rcases hc : stepCurrency r3 with _ | e4 <;> rw [hc] at h <;>
    simp only [] at h
  case some => simp at h
  rcases ham : stepAmount r3 with _ | e5 <;> rw [ham] at h <;>
    simp only [] at h
  case some => simp at h
  rcases hdy : stepDays r3 with _ | e6 <;> rw [hdy] at h <;>
    simp only [] at h
  case some => simp at h
  rcases hu : stepURL r3 with _ | e7 <;> rw [hu] at h <;>
    simp only [] at h
  case some => simp at h
  obtain ⟨hver, hcl, hsw, hcur, ham2, hpid, hsd, hdays, hnop, hurl⟩ :=
    stepVersion_ok h
  obtain ⟨hp16, hphex, hpcl, hpsw, hpcur, hpam, hpsd, hpdays, hpnop, hpurl,
    hpver⟩ := stepPaymentID_ok hp
  obtain ⟨hdcan, hdcl, hdsw, hdcur, hdam, hdpid, hddays, hdnop, hdurl,
    hdver⟩ := stepStartDate_ok hd
  refine ⟨?_, ?_, ?_, ?_, ?_, ?_, ?_, ?_, ?_, hver⟩
  · rw [hcl, hdcl, hpcl]
    exact stepLabel_label r
  · rw [stepWallet_congr (show rv.SellersWallet = (stepLabel r).SellersWallet
      by rw [hsw, hdsw, hpsw])]
    exact hw
  · rw [hpid, hdpid]
    exact hp16
  · rw [hpid, hdpid]
    exact hphex
  · rw [hsd]
    exact hdcan
  · rw [hcur]
    exact stepCurrency_ok hc
  · rw [ham2]
    exact stepAmount_ok ham
  · rw [hdays]
    exact stepDays_ok hdy
  · rw [stepURL_congr (show rv.ChangeIndicatorURL = r3.ChangeIndicatorURL
      from hurl)]
    exact hu

lemma stepPaymentID_frame (env : Env) (r : MoneroRequest) :
    (stepPaymentID env r).1.CustomLabel = r.CustomLabel ∧
    (stepPaymentID env r).1.SellersWallet = r.SellersWallet ∧
    (stepPaymentID env r).1.Currency = r.Currency ∧
    (stepPaymentID env r).1.Amount = r.Amount ∧
    (stepPaymentID env r).1.StartDate = r.StartDate ∧
    (stepPaymentID env r).1.DaysPerBillingCycle = r.DaysPerBillingCycle ∧
    (stepPaymentID env r).1.NumberOfPayments = r.NumberOfPayments ∧
    (stepPaymentID env r).1.ChangeIndicatorURL = r.ChangeIndicatorURL ∧
    (stepPaymentID env r).1.Version = r.Version := by
  unfold stepPaymentID
  split
  · cases GenRandomPaymentID? env.rng <;>
      exact ⟨rfl, rfl, rfl, rfl, rfl, rfl, rfl, rfl, rfl⟩
  · split <;> exact ⟨rfl, rfl, rfl, rfl, rfl, rfl, rfl, rfl, rfl⟩

lemma stepStartDate_frame (env : Env) (r : MoneroRequest) :
    (stepStartDate env r).1.CustomLabel = r.CustomLabel ∧
    (stepStartDate env r).1.SellersWallet = r.SellersWallet ∧
    (stepStartDate env r).1.Currency = r.Currency ∧
    (stepStartDate env r).1.Amount = r.Amount ∧
    (stepStartDate env r).1.PaymentID = r.PaymentID ∧
    (stepStartDate env r).1.DaysPerBillingCycle = r.DaysPerBillingCycle ∧
    (stepStartDate env r).1.NumberOfPayments = r.NumberOfPayments ∧
    (stepStartDate env r).1.ChangeIndicatorURL = r.ChangeIndicatorURL ∧
    (stepStartDate env r).1.Version = r.Version := by
  unfold stepStartDate
  split
  · exact ⟨rfl, rfl, rfl, rfl, rfl, rfl, rfl, rfl, rfl⟩
  · split <;> exact ⟨rfl, rfl, rfl, rfl, rfl, rfl, rfl, rfl, rfl⟩

lemma stepVersion_frame (r : MoneroRequest) :
    (stepVersion r).1.CustomLabel = r.CustomLabel ∧
    (stepVersion r).1.SellersWallet = r.SellersWallet ∧
    (stepVersion r).1.Currency = r.Currency ∧
    (stepVersion r).1.Amount = r.Amount ∧
    (stepVersion r).1.PaymentID = r.PaymentID ∧
    (stepVersion r).1.StartDate = r.StartDate ∧
    (stepVersion r).1.DaysPerBillingCycle = r.DaysPerBillingCycle ∧
    (stepVersion r).1.NumberOfPayments = r.NumberOfPayments ∧
    (stepVersion r).1.ChangeIndicatorURL = r.ChangeIndicatorURL := by
  unfold stepVersion
  split <;> exact ⟨rfl, rfl, rfl, rfl, rfl, rfl, rfl, rfl, rfl⟩

/-- Whatever the outcome, the validator never writes any field other than
CustomLabel, PaymentID, StartDate and Version. -/
lemma ValidateSt_frame (env : Env) (r : MoneroRequest) :
    (ValidateSt env r).1.SellersWallet = r.SellersWallet ∧
    (ValidateSt env r).1.Currency = r.Currency ∧
    (ValidateSt env r).1.Amount = r.Amount ∧
    (ValidateSt env r).1.DaysPerBillingCycle = r.DaysPerBillingCycle ∧
    (ValidateSt env r).1.NumberOfPayments = r.NumberOfPayments ∧
    (ValidateSt env r).1.ChangeIndicatorURL = r.ChangeIndicatorURL := by
  obtain ⟨l1, l2, l3, l4, l5, l6, l7, l8, l9⟩ := stepLabel_frame r
  unfold ValidateSt ValidateTail
  try unfold ValidateTail2
  simp only []
  rcases hw : stepWallet (stepLabel r) with _ | e <;> simp only []
  case some => exact ⟨l1, l2, l3, l6, l7, l8⟩
  obtain ⟨p1, p2, p3, p4, p5, p6, p7, p8, p9⟩ :=
    stepPaymentID_frame env (stepLabel r)
  rcases hp : stepPaymentID env (stepLabel r) with ⟨r2, e2⟩
  rw [hp] at p1 p2 p3 p4 p5 p6 p7 p8 p9
  rcases e2 with _ | e2 <;> simp only []
  case mk.some =>
    exact ⟨p2.trans l1, p3.trans l2, p4.trans l3, p6.trans l6, p7.trans l7,
      p8.trans l8⟩
  obtain ⟨d1, d2, d3, d4, d5, d6, d7, d8, d9⟩ := stepStartDate_frame env r2
  rcases hd : stepStartDate env r2 with ⟨r3, e3⟩
  rw [hd] at d1 d2 d3 d4 d5 d6 d7 d8 d9
  have f2 : r3.SellersWallet = r.SellersWallet := d2.trans (p2.trans l1)
  have f3 : r3.Currency = r.Currency := d3.trans (p3.trans l2)
  have f4 : r3.Amount = r.Amount := d4.trans (p4.trans l3)
  have f6 : r3.DaysPerBillingCycle = r.DaysPerBillingCycle :=
    d6.trans (p6.trans l6)
  have f7 : r3.NumberOfPayments = r.NumberOfPayments := d7.trans (p7.trans l7)
  have f8 : r3.ChangeIndicatorURL = r.ChangeIndicatorURL :=
    d8.trans (p8.trans l8)
  rcases e3 with _ | e3 <;> simp only []
  case mk.some => exact ⟨f2, f3, f4, f6, f7, f8⟩
  rcases hc : stepCurrency r3 with _ | e4 <;> simp only []
  case some => exact ⟨f2, f3, f4, f6, f7, f8⟩
  rcases ham : stepAmount r3 with _ | e5 <;> simp only []
  case some => exact ⟨f2, f3, f4, f6, f7, f8⟩
  rcases hdy : stepDays r3 with _ | e6 <;> simp only []
  case some => exact ⟨f2, f3, f4, f6, f7, f8⟩
  rcases hu : stepURL r3 with _ | e7 <;> simp only []
  case some => exact ⟨f2, f3, f4, f6, f7, f8⟩
  obtain ⟨v1, v2, v3, v4, v5, v6, v7, v8, v9⟩ := stepVersion_frame r3
  exact ⟨v2.trans f2, v3.trans f3, v4.trans f4, v7.trans f6, v8.trans f7,
    v9.trans f8⟩

lemma isCanonicalDate_ne_nil {s : String} (h : isCanonicalDate s = true) :
    s.data ≠ [] := by
  intro hnil
  unfold isCanonicalDate at h
  rw [hnil] at h
  exact absurd h (by decide)

/-- Validating an already-validated record changes nothing and succeeds,
under any environment: normalization is idempotent. -/
lemma ValidateSt_idem {env env2 : Env} {r rv : MoneroRequest}
    (h : ValidateSt env r = (rv, none)) :
    ValidateSt env2 rv = (rv, none) := by
  obtain ⟨hcl, hwre, hp16, hphex, hsdcan, hcur, ham, hdays, hurl, hver⟩ :=
    ValidateSt_ok h
  have e1 : stepLabel rv = rv := by
    unfold stepLabel
    rw [if_neg hcl]
  have e3 : stepPaymentID env2 rv = (rv, none) := by
    unfold stepPaymentID
    rw [if_neg (by rw [hp16]; omega), if_pos hp16]
    unfold pidCharCheck
    rw [if_pos hphex]
  have e4 : stepStartDate env2 rv = (rv, none) := by
    unfold stepStartDate
    have hne : utf8Len rv.StartDate ≠ 0 := by
      rw [ne_eq, utf8Len_eq_zero]
      exact isCanonicalDate_ne_nil hsdcan
    rw [if_neg hne]
    have hpr : chronoParseRender rv.StartDate = some rv.StartDate := by
      unfold chronoParseRender
      rw [if_pos hsdcan]
    rw [hpr]
  have e5 : stepCurrency rv = none := by
    unfold stepCurrency
    rw [if_pos hcur]
  have e6 : stepAmount rv = none := by
    unfold stepAmount
    rw [if_pos ham]
  have e7 : stepDays rv = none := by
    unfold stepDays
    rw [if_neg hdays]
  have e9 : stepVersion rv = (rv, none) := by
    unfold stepVersion
    split
    · rename_i hv
      exact absurd (hv ▸ hver) (by decide)
    · rfl
    · rename_i hv1 hv2
      exact absurd hver hv2
  unfold ValidateSt ValidateTail
  try unfold ValidateTail2
  simp only []
  rw [e1, hwre]
  simp only []
  rw [e3]
  simp only []
  rw [e4]
  simp only []
  rw [e5]
  simp only []
  rw [e6]
  simp only []
  rw [e7]
  simp only []
  rw [hurl]
  simp only []
  exact e9

/-! ## Encode/decode composition -/

lemma ValidateF_ok_iff {env : Env} {r rv : MoneroRequest} :
    ValidateF env r = .ok rv ↔ ValidateSt env r = (rv, none) := by
  unfold ValidateF
  rcases hv : ValidateSt env r with ⟨rr, e⟩
  cases e <;> simp

lemma encode_of_validate {env : Env} {r rv : MoneroRequest}
    (h : ValidateF env r = .ok rv) :
    EncodePaymentRequest env r =
      .ok ("monero-request:1:" ++ ⟨b64encode (deflate (jsonSerialize rv))⟩) := by
  unfold EncodePaymentRequest
  rw [h]

/-- The tagged envelope, decomposed at its first two colons. -/
lemma tag_data (l : List Char) :
    ("monero-request:1:" ++ (⟨l⟩ : String)).data =
      "monero-request".data ++ ':' :: ('1' :: ':' :: l) := by
  rw [String.data_append]
  rw [show ("monero-request:1:".data : List Char) =
    "monero-request".data ++ [':', '1', ':'] from by decide]
  rw [List.append_assoc]
  rfl

lemma cons_two (l : List Char) : ('1' :: ':' :: l) = ['1'] ++ ':' :: l := rfl

/-- The modelled decoder undoes the encode pipeline on any validated
record, under any decode-time environment. -/
lemma decode_of_encode {env env2 : Env} {r rv : MoneroRequest}
    (h : ValidateF env r = .ok rv) :
    DecodePaymentRequest env2
      ("monero-request:1:" ++ ⟨b64encode (deflate (jsonSerialize rv))⟩) =
      .ok rv := by
  unfold DecodePaymentRequest
  rw [tag_data, breakColon_append (by decide)]
  simp only []
  rw [cons_two, breakColon_append (by decide)]
  simp only []
  rw [if_pos (show _ ∧ _ by constructor <;> trivial)]
  rw [b64decode_b64encode _ (deflate_lt (jsonSerialize rv))]
  simp only []
  rw [inflate_deflate]
  simp only []
  rw [parseJson_jsonSerialize]
  simp only []
  exact ValidateF_ok_iff.mpr (ValidateSt_idem (ValidateF_ok_iff.mp h))

/-! ## Sample data for witnesses -/

/-- A fixed environment: a canonical clock value, a constant generator. -/
def exEnv : Env := ⟨"2024-01-01 00:00:00 UTC", by decide, fun _ => ⟨0, by omega⟩⟩

/-- A second, different environment. -/
def exEnv2 : Env :=
  ⟨"2025-06-30 12:00:00 UTC", by decide, fun _ => ⟨5, by omega⟩⟩

/-- The valid record of the crate's own test (tests/tests.rs), with an
explicit PaymentID and a canonical StartDate. -/
def exRec : MoneroRequest :=
  ⟨"A label",
   "4At3X5rvVypTofgmueN9s9QtrzdRe5BueFrskAZi17BoYbhzysozzoMFB6zWnTKdGC6AxEAbEE5czFR3hbEEJbsm4hCeX2S",
   "USD", "123.45", "0123456789abcdef", "2023-04-26 13:45:33 UTC",
   ⟨30, by omega⟩, ⟨12, by omega⟩, "https://example.com", "1"⟩

deriving instance DecidableEq for Except

set_option maxHeartbeats 4000000 in
lemma exRec_validates : ValidateF exEnv exRec = .ok exRec := by decide

/-! ## The claims -/

/-- C1: for every record that passes validation, decoding the encoded
envelope yields exactly the validator-normalized record: the (spec-modelled)
decoder is the exact left inverse of `EncodePaymentRequest` on everything
encode can produce. -/
theorem C1_decode_is_left_inverse_of_encode (env env2 : Env)
    (r rv : MoneroRequest) (h : ValidateF env r = .ok rv) :
    ∃ s, EncodePaymentRequest env r = .ok s ∧
      DecodePaymentRequest env2 s = .ok rv :=
  ⟨_, encode_of_validate h, decode_of_encode h⟩

/-- Witness for C1 at the crate's own test record. -/
theorem C1_witness :
    ValidateF exEnv exRec = .ok exRec ∧
    ∃ s, EncodePaymentRequest exEnv exRec = .ok s ∧
      DecodePaymentRequest exEnv2 s = .ok exRec :=
  ⟨exRec_validates,
    C1_decode_is_left_inverse_of_encode exEnv exEnv2 exRec exRec
      exRec_validates⟩

lemma data_mk (l : List Char) : (⟨l⟩ : String).data = l := rfl

lemma data_append_mk (a : String) (l : List Char) :
    (a ++ (⟨l⟩ : String)).data = a.data ++ l := by
  rw [String.data_append, data_mk]

/-- The full envelope text is 7-bit ASCII. -/
lemma encode_string_ascii (rv : MoneroRequest) :
    ∀ c ∈ ("monero-request:1:" ++
      (⟨b64encode (deflate (jsonSerialize rv))⟩ : String)).data,
      c.toNat < 128 := by
  intro c hc
  rw [data_append_mk] at hc
  rcases List.mem_append.mp hc with hpre | henc
  · exact (by decide : ∀ d ∈ "monero-request:1:".data, d.toNat < 128) c hpre
  · exact (b64encode_chars _ (deflate_lt _) c henc).1

/-- C2: a successful encode returns the literal tag `monero-request:1:`
followed by the padded-standard-base64 encoding of the compressed JSON
serialization of the validated record, and the output is pure ASCII. -/
theorem C2_envelope_shape (env : Env) (r : MoneroRequest) (s : String)
    (h : EncodePaymentRequest env r = .ok s) :
    ∃ rv, ValidateF env r = .ok rv ∧
      s = "monero-request:1:" ++ ⟨b64encode (deflate (jsonSerialize rv))⟩ ∧
      ∀ c ∈ s.data, c.toNat < 128 := by
  unfold EncodePaymentRequest at h
  cases hv : ValidateF env r with
  | error e => rw [hv] at h; cases h
  | ok rv =>
    rw [hv] at h
    simp only [Except.ok.injEq] at h
    subst h
    exact ⟨rv, rfl, rfl, encode_string_ascii rv⟩

/-- Witness for C2 at the crate's own test record. -/
theorem C2_witness :
    EncodePaymentRequest exEnv exRec =
      .ok ("monero-request:1:" ++
        ⟨b64encode (deflate (jsonSerialize exRec))⟩) ∧
    ∃ rv, ValidateF exEnv exRec = .ok rv ∧
      ("monero-request:1:" ++
        ⟨b64encode (deflate (jsonSerialize exRec))⟩ : String) =
        "monero-request:1:" ++ ⟨b64encode (deflate (jsonSerialize rv))⟩ ∧
      ∀ c ∈ ("monero-request:1:" ++
        ⟨b64encode (deflate (jsonSerialize exRec))⟩ : String).data,
        c.toNat < 128 :=
  ⟨encode_of_validate exRec_validates,
    C2_envelope_shape exEnv exRec _ (encode_of_validate exRec_validates)⟩

lemma ne_empty_of_data {s : String} (h : s.data ≠ []) : s ≠ "" :=
  fun he => h (by rw [he])

/-- C3: a record that passed validation has non-empty CustomLabel,
PaymentID, StartDate, Version (with Version `"1"`, PaymentID exactly 16
lowercase-hex characters) and a 95- or 106-character alphanumeric wallet
whose first character is `4` or `8`. -/
theorem C3_validated_invariants (env : Env) (r rv : MoneroRequest)
    (h : ValidateF env r = .ok rv) :
    rv.CustomLabel ≠ "" ∧ rv.PaymentID ≠ "" ∧ rv.StartDate ≠ "" ∧
    rv.Version = "1" ∧ rv.PaymentID.length = 16 ∧
    (∀ c ∈ rv.PaymentID.data, isHexLower c = true) ∧
    (rv.SellersWallet.length = 95 ∨ rv.SellersWallet.length = 106) ∧
    (∀ c ∈ rv.SellersWallet.data, isWalletChar c = true) ∧
    ∃ fc, rv.SellersWallet.data.head? = some fc ∧ (fc = '4' ∨ fc = '8') := by
  obtain ⟨hcl, hwre, hp16, hphex, hsdcan, _, _, _, _, hver⟩ :=
    ValidateSt_ok (ValidateF_ok_iff.mp h)
  obtain ⟨hwlen, hwhead, hwall⟩ := stepWallet_ok hwre
  have hpidchars : ∀ c ∈ rv.PaymentID.data, isHexLower c = true :=
    List.all_eq_true.mp hphex
  have hwchars : ∀ c ∈ rv.SellersWallet.data, isWalletChar c = true :=
    List.all_eq_true.mp hwall
  have hwascii : utf8Len rv.SellersWallet = rv.SellersWallet.data.length :=
    utf8Len_of_ascii (fun c hc => isWalletChar_ascii (hwchars c hc))
  have hpascii : utf8Len rv.PaymentID = rv.PaymentID.data.length :=
    utf8Len_of_ascii (fun c hc => isHexLower_ascii (hpidchars c hc))
  refine ⟨?_, ?_, ?_, hver, ?_, hpidchars, ?_, hwchars, hwhead⟩
  · exact ne_empty_of_data (fun hnil => hcl (utf8Len_eq_zero.mpr hnil))
  · refine ne_empty_of_data (fun hnil => ?_)
    rw [utf8Len_eq_zero.mpr hnil] at hp16
    cases hp16
  · exact ne_empty_of_data (isCanonicalDate_ne_nil hsdcan)
  · show rv.PaymentID.data.length = 16
    rw [← hpascii]
    exact hp16
  · show rv.SellersWallet.data.length = 95 ∨
      rv.SellersWallet.data.length = 106
    rw [← hwascii]
    exact hwlen

/-- Witness for C3 at the crate's own test record. -/
theorem C3_witness :
    ValidateF exEnv exRec = .ok exRec ∧
    (exRec.CustomLabel ≠ "" ∧ exRec.PaymentID ≠ "" ∧ exRec.StartDate ≠ "" ∧
    exRec.Version = "1" ∧ exRec.PaymentID.length = 16 ∧
    (∀ c ∈ exRec.PaymentID.data, isHexLower c = true) ∧
    (exRec.SellersWallet.length = 95 ∨ exRec.SellersWallet.length = 106) ∧
    (∀ c ∈ exRec.SellersWallet.data, isWalletChar c = true) ∧
    ∃ fc, exRec.SellersWallet.data.head? = some fc ∧
      (fc = '4' ∨ fc = '8')) :=
  ⟨exRec_validates, C3_validated_invariants exEnv exRec exRec exRec_validates⟩

/-- C8: `GenRandomPaymentID` always succeeds and returns exactly 16
characters, each drawn from the lowercase-hex alphabet. -/
theorem C8_gen_random_payment_id (rng : Nat → Fin 16) :
    ∃ s, GenRandomPaymentID? rng = some s ∧ GenRandomPaymentID rng = s ∧
      s.length = 16 ∧ ∀ c ∈ s.data, isHexLower c = true := by
  obtain ⟨s, hs, hlen, hhex⟩ := genRandomPaymentID_spec rng
  refine ⟨s, hs, ?_, ?_, hhex⟩
  · rw [genRandomPaymentID_total, hs]
    rfl
  · show s.data.length = 16
    exact hlen

/-! ## Panic-freedom of the validator and encoder -/

lemma stepWallet_no_panic (r : MoneroRequest) :
    stepWallet r ≠ some MRErr.Panic := by
  unfold stepWallet
  split
  · simp
  · rename_i h0
    split
    · split
      · rename_i heq
        exact absurd (utf8Len_eq_zero.mpr (List.head?_eq_none_iff.mp heq)) h0
      · split
        · simp
        · split <;> simp
    · simp

lemma pidCharCheck_no_panic (r : MoneroRequest) :
    pidCharCheck r ≠ some MRErr.Panic := by
  unfold pidCharCheck
  split <;> simp

lemma stepPaymentID_no_panic (env : Env) (r : MoneroRequest) :
    (stepPaymentID env r).2 ≠ some MRErr.Panic := by
  unfold stepPaymentID
  split
  · obtain ⟨s, hs, _, _⟩ := genRandomPaymentID_spec env.rng
    rw [hs]
    simp only []
    exact pidCharCheck_no_panic _
  · split
    · simp only []
      exact pidCharCheck_no_panic _
    · simp

lemma stepStartDate_no_panic (env : Env) (r : MoneroRequest) :
    (stepStartDate env r).2 ≠ some MRErr.Panic := by
  unfold stepStartDate
  split
  · simp
  · split <;> simp

lemma stepVersion_no_panic (r : MoneroRequest) :
    (stepVersion r).2 ≠ some MRErr.Panic := by
  unfold stepVersion
  split <;> simp

lemma stepCurrency_no_panic (r : MoneroRequest) :
    stepCurrency r ≠ some MRErr.Panic := by
  unfold stepCurrency
  split <;> simp

lemma stepAmount_no_panic (r : MoneroRequest) :
    stepAmount r ≠ some MRErr.Panic := by
  unfold stepAmount
  split <;> simp

lemma stepDays_no_panic (r : MoneroRequest) :
    stepDays r ≠ some MRErr.Panic := by
  unfold stepDays
  split <;> simp

lemma stepURL_no_panic (r : MoneroRequest) :
    stepURL r ≠ some MRErr.Panic := by
  unfold stepURL
  split
  · split
    · simp
    · split <;> simp
  · simp

/-- Neither `unwrap` of the source is reachable: the validator never
returns the panic marker. -/
lemma ValidateSt_no_panic (env : Env) (r : MoneroRequest) :
    (ValidateSt env r).2 ≠ some MRErr.Panic := by
  unfold ValidateSt ValidateTail
  try unfold ValidateTail2
  simp only []
  rcases hw : stepWallet (stepLabel r) with _ | e <;> simp only []
  case some =>
    intro hc
    injection hc with hc2
    subst hc2
    exact stepWallet_no_panic _ hw
  rcases hp : stepPaymentID env (stepLabel r) with ⟨r2, e2⟩
  cases e2 <;> simp only []
  case mk.some e2 =>
    intro hc
    injection hc with hc2
    subst hc2
    exact stepPaymentID_no_panic env (stepLabel r) (by rw [hp])
  rcases hd : stepStartDate env r2 with ⟨r3, e3⟩
  cases e3 <;> simp only []
  case mk.some e3 =>
    intro hc
    injection hc with hc2
    subst hc2
    exact stepStartDate_no_panic env r2 (by rw [hd])
  rcases hc : stepCurrency r3 with _ | e4 <;> simp only []
  case some =>
    intro hcon
    injection hcon with hc2
    subst hc2
    exact stepCurrency_no_panic _ hc
  rcases ham : stepAmount r3 with _ | e5 <;> simp only []
  case some =>
    intro hcon
    injection hcon with hc2
    subst hc2
    exact stepAmount_no_panic _ ham
  rcases hdy : stepDays r3 with _ | e6 <;> simp only []
  case some =>
    intro hcon
    injection hcon with hc2
    subst hc2
    exact stepDays_no_panic _ hdy
  rcases hu : stepURL r3 with _ | e7 <;> simp only []
  case some =>
    intro hcon
    injection hcon with hc2
    subst hc2
    exact stepURL_no_panic _ hu
  exact stepVersion_no_panic r3

lemma ValidateF_error {env : Env} {r : MoneroRequest} {e : MRErr}
    (h : ValidateF env r = .error e) : (ValidateSt env r).2 = some e := by
  unfold ValidateF at h
  rcases hs : ValidateSt env r with ⟨rr, oe⟩
  rw [hs] at h
  cases oe
  · cases h
  · injection h with h2
    subst h2
    rfl

/-- C9: the encoder and the random-identifier generator never panic: every
error is a returned value, and the two `unwrap` sites of the source (the
first wallet character after the length check, and the hex-alphabet
indexing) never see `None`. -/
theorem C9_no_panics (env : Env) (r : MoneroRequest) (rng : Nat → Fin 16) :
    (ValidateSt env r).2 ≠ some MRErr.Panic ∧
    EncodePaymentRequest env r ≠ .error MRErr.Panic ∧
    (GenRandomPaymentID? rng).isSome = true := by
  refine ⟨ValidateSt_no_panic env r, ?_, ?_⟩
  · unfold EncodePaymentRequest
    rcases hv : ValidateF env r with e | rv <;> simp only []
    · intro hc
      injection hc with hc2
      subst hc2
      exact ValidateSt_no_panic env r (ValidateF_error hv)
    · simp
  · obtain ⟨s, hs, _, _⟩ := genRandomPaymentID_spec rng
    rw [hs]
    rfl

/-! ## Determinism of encode when no defaults are drawn -/

lemma eq_empty_of_data_nil {s : String} (h : s.data = []) : s = "" := by
  cases s
  cases h
  rfl

lemma stepPaymentID_env_indep {r : MoneroRequest}
    (h : utf8Len r.PaymentID ≠ 0) (env1 env2 : Env) :
    stepPaymentID env1 r = stepPaymentID env2 r := by
  unfold stepPaymentID
  simp only [if_neg h]

lemma stepStartDate_env_indep {r : MoneroRequest}
    (h : utf8Len r.StartDate ≠ 0) (env1 env2 : Env) :
    stepStartDate env1 r = stepStartDate env2 r := by
  unfold stepStartDate
  simp only [if_neg h]

/-- With PaymentID and StartDate both present, the validator consults the
environment nowhere. -/
lemma ValidateSt_env_indep (env1 env2 : Env) (r : MoneroRequest)
    (h1 : r.PaymentID ≠ "") (h2 : r.StartDate ≠ "") :
    ValidateSt env1 r = ValidateSt env2 r := by
  have hp : utf8Len (stepLabel r).PaymentID ≠ 0 := by
    rw [(stepLabel_frame r).2.2.2.1, ne_eq, utf8Len_eq_zero]
    exact fun hnil => h1 (eq_empty_of_data_nil hnil)
  unfold ValidateSt ValidateTail
  try unfold ValidateTail2
  simp only []
  rw [stepPaymentID_env_indep hp env1 env2]
  rcases hw : stepWallet (stepLabel r) with _ | e <;> simp only []
  rcases hp2 : stepPaymentID env2 (stepLabel r) with ⟨r2, e2⟩
  cases e2 <;> simp only []
  have hsd : utf8Len r2.StartDate ≠ 0 := by
    have hfr := (stepPaymentID_frame env2 (stepLabel r)).2.2.2.2.1
    rw [hp2] at hfr
    show utf8Len r2.StartDate ≠ 0
    rw [hfr, (stepLabel_frame r).2.2.2.2.1, ne_eq, utf8Len_eq_zero]
    exact fun hnil => h2 (eq_empty_of_data_nil hnil)
  rw [stepStartDate_env_indep hsd env1 env2]

/-- C10: with a caller-supplied PaymentID and StartDate, encoding is
deterministic — the random generator and the clock are consulted only to
fill empty fields. -/
theorem C10_deterministic_encode (env1 env2 : Env) (r : MoneroRequest)
    (h1 : r.PaymentID ≠ "") (h2 : r.StartDate ≠ "") :
    EncodePaymentRequest env1 r = EncodePaymentRequest env2 r := by
  unfold EncodePaymentRequest ValidateF
  rw [ValidateSt_env_indep env1 env2 r h1 h2]

/-- Witness for C10: the test record, under two different environments. -/
theorem C10_witness :
    exRec.PaymentID ≠ "" ∧ exRec.StartDate ≠ "" ∧
    EncodePaymentRequest exEnv exRec = EncodePaymentRequest exEnv2 exRec :=
  ⟨by decide, by decide,
    C10_deterministic_encode exEnv exEnv2 exRec (by decide) (by decide)⟩

/-! ## The Amount rule (C5) -/

lemma stepPaymentID_passes (env : Env) (r : MoneroRequest)
    (h : utf8Len r.PaymentID = 0 ∨
      (utf8Len r.PaymentID = 16 ∧ r.PaymentID.data.all isHexLower = true)) :
    ∃ r2, stepPaymentID env r = (r2, none) ∧ r2.Currency = r.Currency ∧
      r2.Amount = r.Amount ∧ r2.StartDate = r.StartDate := by
  rcases h with h0 | ⟨h16, hhex⟩
  · unfold stepPaymentID
    rw [if_pos h0]
    obtain ⟨s, hs, _, hsx⟩ := genRandomPaymentID_spec env.rng
    rw [hs]
    simp only []
    refine ⟨{r with PaymentID := s}, ?_, rfl, rfl, rfl⟩
    have hcc : pidCharCheck {r with PaymentID := s} = none := by
      unfold pidCharCheck
      rw [if_pos (show ({r with PaymentID := s} :
        MoneroRequest).PaymentID.data.all isHexLower = true from
        List.all_eq_true.mpr hsx)]
    rw [hcc]
  · unfold stepPaymentID
    rw [if_neg (by omega), if_pos h16]
    have hcc : pidCharCheck r = none := by
      unfold pidCharCheck
      rw [if_pos hhex]
    rw [hcc]
    exact ⟨r, rfl, rfl, rfl, rfl⟩

lemma stepStartDate_passes (env : Env) (r : MoneroRequest)
    (h : utf8Len r.StartDate = 0 ∨ isCanonicalDate r.StartDate = true) :
    ∃ r3, stepStartDate env r = (r3, none) ∧ r3.Currency = r.Currency ∧
      r3.Amount = r.Amount := by
  rcases h with h0 | hcan
  · unfold stepStartDate
    rw [if_pos h0]
    exact ⟨_, rfl, rfl, rfl⟩
  · unfold stepStartDate
    rw [if_neg (show ¬ utf8Len r.StartDate = 0 from fun hz =>
      isCanonicalDate_ne_nil hcan (utf8Len_eq_zero.mp hz))]
    have hpr : chronoParseRender r.StartDate = some r.StartDate := by
      unfold chronoParseRender
      rw [if_pos hcan]
    rw [hpr]
    exact ⟨_, rfl, rfl, rfl⟩

/-- The counterexample record for C5: Amount is a bare comma — no digit
anywhere — and every other field is valid. -/
def exRecComma : MoneroRequest := { exRec with Amount := "," }

/-- C5 counterexample: an Amount with no digit at all (a bare `","`) is
accepted by the validator, so validation does not fail with the
invalid-amount error as the claim requires. -/
theorem C5_counterexample :
    (∀ c ∈ exRecComma.Amount.data, isUnicodeNd c = false ∧ c.isDigit = false) ∧
    ValidateF exEnv exRecComma = .ok exRecComma := ⟨by decide, by decide⟩

/-! ## Mutation on error paths (C7) -/

/-- The counterexample record for C7: empty label and empty wallet. -/
def exRecBad : MoneroRequest :=
  { exRec with CustomLabel := "", SellersWallet := "" }

/-- C7 counterexample: validation of a record with an empty label and an
empty wallet fails (empty-wallet error), yet CustomLabel has already been
overwritten with the default — a field was mutated on an error path. -/
theorem C7_counterexample :
    (ValidateSt exEnv exRecBad).2 =
      some (.InvalidInput "No seller wallet specified.") ∧
    exRecBad.CustomLabel = "" ∧
    (ValidateSt exEnv exRecBad).1.CustomLabel = "Monero Payment Request" := by
  refine ⟨by decide, by decide, by decide⟩

/-- The Version stage writes only on a success outcome: when it reports an
error the record is returned unchanged. -/
lemma stepVersion_err (r : MoneroRequest) :
    (stepVersion r).2 = none ∨ (stepVersion r).1 = r := by
  unfold stepVersion
  split
  · exact Or.inl rfl
  · exact Or.inl rfl
  · exact Or.inr rfl

/-- Version is written only on the success path: whenever `Validate`
returns an outcome with Version changed, that outcome is a success.  (The
source's only write to Version is immediately followed by `Ok(())`.) -/
lemma ValidateSt_version (env : Env) (r : MoneroRequest) :
    (ValidateSt env r).1.Version = r.Version ∨ (ValidateSt env r).2 = none := by
  obtain ⟨l1, l2, l3, l4, l5, l6, l7, l8, l9⟩ := stepLabel_frame r
  unfold ValidateSt ValidateTail
  try unfold ValidateTail2
  simp only []
  rcases hw : stepWallet (stepLabel r) with _ | e <;> simp only []
  case some => exact Or.inl l9
  obtain ⟨p1, p2, p3, p4, p5, p6, p7, p8, p9⟩ :=
    stepPaymentID_frame env (stepLabel r)
  rcases hp : stepPaymentID env (stepLabel r) with ⟨r2, e2⟩
  rw [hp] at p9
  rcases e2 with _ | e2 <;> simp only []
  case mk.some => exact Or.inl (p9.trans l9)
  obtain ⟨d1, d2, d3, d4, d5, d6, d7, d8, d9⟩ := stepStartDate_frame env r2
  rcases hd : stepStartDate env r2 with ⟨r3, e3⟩
  rw [hd] at d9
  have f9 : r3.Version = r.Version := d9.trans (p9.trans l9)
  rcases e3 with _ | e3 <;> simp only []
  case mk.some => exact Or.inl f9
  rcases hc : stepCurrency r3 with _ | e4 <;> simp only []
  case some => exact Or.inl f9
  rcases ham : stepAmount r3 with _ | e5 <;> simp only []
  case some => exact Or.inl f9
  rcases hdy : stepDays r3 with _ | e6 <;> simp only []
  case some => exact Or.inl f9
  rcases hu : stepURL r3 with _ | e7 <;> simp only []
  case some => exact Or.inl f9
  rcases stepVersion_err r3 with hnone | hfst
  · exact Or.inr hnone
  · rw [hfst]
    exact Or.inl f9

/-- C7 (amended): the defaults already applied to CustomLabel, PaymentID
and StartDate remain in place when a later rule fails, so those three
fields may be written even when an error is returned; Version is written
only on the success path (its write is immediately followed by the
successful return); every other field — SellersWallet, Currency, Amount,
DaysPerBillingCycle, NumberOfPayments, ChangeIndicatorURL — is never
written, on any path. -/
theorem C7_amended_read_only_fields (env : Env) (r : MoneroRequest) :
    (ValidateSt env r).1.SellersWallet = r.SellersWallet ∧
    (ValidateSt env r).1.Currency = r.Currency ∧
    (ValidateSt env r).1.Amount = r.Amount ∧
    (ValidateSt env r).1.DaysPerBillingCycle = r.DaysPerBillingCycle ∧
    (ValidateSt env r).1.NumberOfPayments = r.NumberOfPayments ∧
    (ValidateSt env r).1.ChangeIndicatorURL = r.ChangeIndicatorURL ∧
    (∀ e, (ValidateSt env r).2 = some e →
      (ValidateSt env r).1.Version = r.Version) := by
  obtain ⟨f1, f2, f3, f4, f5, f6⟩ := ValidateSt_frame env r
  refine ⟨f1, f2, f3, f4, f5, f6, fun e he => ?_⟩
  rcases ValidateSt_version env r with hv | hn
  · exact hv
  · rw [hn] at he
    exact Option.noConfusion he

/-- Witness for the amended C7: the C7 counterexample record fails with
the empty-wallet error, and its Version is indeed untouched. -/
theorem C7_witness :
    (ValidateSt exEnv exRecBad).2 =
      some (.InvalidInput "No seller wallet specified.") ∧
    (ValidateSt exEnv exRecBad).1.Version = exRecBad.Version :=
  ⟨by decide,
    (C7_amended_read_only_fields exEnv exRecBad).2.2.2.2.2.2
      (.InvalidInput "No seller wallet specified.") (by decide)⟩

/-! ## NumberOfPayments is never read (C6) -/

lemma stepLabel_nop (r : MoneroRequest) (n : Fin 256) :
    stepLabel { r with NumberOfPayments := n } =
      { stepLabel r with NumberOfPayments := n } := by
  obtain ⟨f1, f2, f3, f4, f5, f6, f7, f8, f9, f10⟩ := r
  unfold stepLabel
  simp only []
  by_cases h : utf8Len f1 = 0 <;> simp [h]

lemma stepPaymentID_nop (env : Env) (r : MoneroRequest) (n : Fin 256) :
    stepPaymentID env { r with NumberOfPayments := n } =
      ({ (stepPaymentID env r).1 with NumberOfPayments := n },
        (stepPaymentID env r).2) := by
  obtain ⟨f1, f2, f3, f4, f5, f6, f7, f8, f9, f10⟩ := r
  unfold stepPaymentID
  simp only []
  by_cases h0 : utf8Len f5 = 0
  · simp only [if_pos h0]
    rcases hg : GenRandomPaymentID? env.rng with _ | s <;> simp only [] <;>
      try rfl
  · by_cases h16 : utf8Len f5 = 16
    · simp only [if_neg h0, if_pos h16]
      try rfl
    · simp only [if_neg h0, if_neg h16]
      try rfl

lemma stepStartDate_nop (env : Env) (r : MoneroRequest) (n : Fin 256) :
    stepStartDate env { r with NumberOfPayments := n } =
      ({ (stepStartDate env r).1 with NumberOfPayments := n },
        (stepStartDate env r).2) := by
  obtain ⟨f1, f2, f3, f4, f5, f6, f7, f8, f9, f10⟩ := r
  unfold stepStartDate
  simp only []
  by_cases h0 : utf8Len f6 = 0
  · simp only [if_pos h0]
    try rfl
  · simp only [if_neg h0]
    rcases hm : chronoParseRender f6 with _ | d <;> simp only [] <;> try rfl

lemma stepVersion_nop (r : MoneroRequest) (n : Fin 256) :
    stepVersion { r with NumberOfPayments := n } =
      ({ (stepVersion r).1 with NumberOfPayments := n },
        (stepVersion r).2) := by
  obtain ⟨f1, f2, f3, f4, f5, f6, f7, f8, f9, f10⟩ := r
  unfold stepVersion
  simp only []
  split
  · rfl
  · rfl
  · rfl

/-- The validator never reads NumberOfPayments: replacing it commutes with
validation, outcome included. -/
lemma ValidateSt_nop (env : Env) (r : MoneroRequest) (n : Fin 256) :
    ValidateSt env { r with NumberOfPayments := n } =
      ({ (ValidateSt env r).1 with NumberOfPayments := n },
        (ValidateSt env r).2) := by
  unfold ValidateSt ValidateTail
  try unfold ValidateTail2
  simp only []
  rw [stepLabel_nop]
  rw [show stepWallet { stepLabel r with NumberOfPayments := n } =
    stepWallet (stepLabel r) from stepWallet_congr rfl]
  rcases hw : stepWallet (stepLabel r) with _ | e <;> simp only []
  all_goals try rfl
  rw [stepPaymentID_nop]
  rcases hp : stepPaymentID env (stepLabel r) with ⟨r2, e2⟩
  simp only []
  cases e2 <;> simp only []
  all_goals try rfl
  rw [stepStartDate_nop]
  rcases hd : stepStartDate env r2 with ⟨r3, e3⟩
  simp only []
  cases e3 <;> simp only []
  all_goals try rfl
  rw [show stepCurrency { r3 with NumberOfPayments := n } = stepCurrency r3
    from stepCurrency_congr rfl]
  rcases hc : stepCurrency r3 with _ | e4 <;> simp only []
  all_goals try rfl
  rw [show stepAmount { r3 with NumberOfPayments := n } = stepAmount r3
    from stepAmount_congr rfl]
  rcases ham : stepAmount r3 with _ | e5 <;> simp only []
  all_goals try rfl
  rw [show stepDays { r3 with NumberOfPayments := n } = stepDays r3
    from stepDays_congr rfl]
  rcases hdy : stepDays r3 with _ | e6 <;> simp only []
  all_goals try rfl
  rw [show stepURL { r3 with NumberOfPayments := n } = stepURL r3
    from stepURL_congr rfl]
  rcases hu : stepURL r3 with _ | e7 <;> simp only []
  all_goals try rfl
  rw [stepVersion_nop]

/-- C6: NumberOfPayments is unconstrained — a record valid in every other
field validates for every NumberOfPayments value, zero included, and the
normalized record carries the substituted value through unchanged. -/
theorem C6_number_of_payments_unconstrained (env : Env)
    (r rv : MoneroRequest) (n : Fin 256) (h : ValidateF env r = .ok rv) :
    ValidateF env { r with NumberOfPayments := n } =
      .ok { rv with NumberOfPayments := n } := by
  have hst := ValidateF_ok_iff.mp h
  rw [ValidateF_ok_iff, ValidateSt_nop, hst]

/-- Witness for C6, at NumberOfPayments zero. -/
theorem C6_witness :
    ValidateF exEnv exRec = .ok exRec ∧
    ValidateF exEnv { exRec with NumberOfPayments := (0 : Fin 256) } =
      .ok { exRec with NumberOfPayments := (0 : Fin 256) } :=
  ⟨exRec_validates,
    C6_number_of_payments_unconstrained exEnv exRec exRec 0 exRec_validates⟩

/-! ## C4: the validator reports the first failing rule of the spec §4.1
sequence.  The cascade below follows the spec's words: independent rules,
evaluated in the listed order, first failure reported. -/

/-- Rule 3's subject, per the spec: an empty PaymentID is replaced by a
generated one before the length/character tests. -/
def specPid (env : Env) (r : MoneroRequest) : String :=
  if utf8Len r.PaymentID = 0 then GenRandomPaymentID env.rng else r.PaymentID

/-- Rules 5-10 of the spec sequence (Currency, Amount, billing cycle,
NumberOfPayments [no constraint], URL, Version). -/
def specTail2Error (r : MoneroRequest) : Option MRErr :=
  if ¬(r.Currency = "USD" ∨ r.Currency = "XMR") then
    some (.InvalidInput "Invalid Currency.")
  else if ¬ r.Amount.data.any isAmountChar = true then
    some (.InvalidInput "Invalid Amount.")
  else if r.DaysPerBillingCycle = (0 : Fin 256) then
    some (.InvalidInput "DaysPerBillingCycle cannot be zero.")
  else if utf8Len r.ChangeIndicatorURL > 0 ∧
      urlParse? r.ChangeIndicatorURL = none then
    some MRErr.UrlError
  else if utf8Len r.ChangeIndicatorURL > 0 ∧
      urlParse? r.ChangeIndicatorURL = some true then
    some (.InvalidInput "ChangeIndicatorURL is an invalid URL.")
  else if r.Version ≠ "" ∧ r.Version ≠ "1" then
    some (.InvalidInput "Unsupported version.")
  else none

/-- Rule 4 (StartDate) followed by rules 5-10. -/
def specTailError (env : Env) (r : MoneroRequest) : Option MRErr :=
  if utf8Len r.StartDate ≠ 0 ∧ chronoParseRender r.StartDate = none then
    some MRErr.ChronoError
  else specTail2Error r

/-- The whole §4.1 sequence: label (never fails), the four wallet tests,
the two PaymentID tests, then the tail. -/
def specFirstError (env : Env) (r : MoneroRequest) : Option MRErr :=
  if utf8Len r.SellersWallet = 0 then
    some (.InvalidInput "No seller wallet specified.")
  else if ¬(utf8Len r.SellersWallet = 95 ∨ utf8Len r.SellersWallet = 106) then
    some (.InvalidInput "Incorrect seller wallet address length.")
  else if ¬(r.SellersWallet.data.head?.getD ' ' = '4' ∨
      r.SellersWallet.data.head?.getD ' ' = '8') then
    some (.InvalidInput "Invalid wallet address. Doesnt start with 4 or 8.")
  else if ¬ r.SellersWallet.data.all isWalletChar = true then
    some (.InvalidInput "Invalid character in wallet address.")
  else if ¬ utf8Len (specPid env r) = 16 then
    some (.InvalidInput "Invalid PaymentID length.")
  else if ¬ (specPid env r).data.all isHexLower = true then
    some (.InvalidInput "Invalid character in PaymentID.")
  else specTailError env r

/-- The source wallet stage equals the spec's four wallet rules in order. -/
lemma stepWallet_eq_spec (r : MoneroRequest) : stepWallet r =
    (if utf8Len r.SellersWallet = 0 then
      some (.InvalidInput "No seller wallet specified.")
    else if ¬(utf8Len r.SellersWallet = 95 ∨
        utf8Len r.SellersWallet = 106) then
      some (.InvalidInput "Incorrect seller wallet address length.")
    else if ¬(r.SellersWallet.data.head?.getD ' ' = '4' ∨
        r.SellersWallet.data.head?.getD ' ' = '8') then
      some (.InvalidInput "Invalid wallet address. Doesnt start with 4 or 8.")
    else if ¬ r.SellersWallet.data.all isWalletChar = true then
      some (.InvalidInput "Invalid character in wallet address.")
    else none) := by
  unfold stepWallet
  by_cases h0 : utf8Len r.SellersWallet = 0
  · rw [if_pos h0, if_pos h0]
  · rw [if_neg h0, if_neg h0]
    by_cases hlen : utf8Len r.SellersWallet = 95 ∨
        utf8Len r.SellersWallet = 106
    · rw [if_pos hlen, if_neg (not_not_intro hlen)]
      have hne : r.SellersWallet.data ≠ [] :=
        fun hnil => h0 (utf8Len_eq_zero.mpr hnil)
      rcases hh : r.SellersWallet.data.head? with _ | fc
      · exact absurd (List.head?_eq_none_iff.mp hh) hne
      · simp only [Option.getD_some]
        by_cases h48 : fc ≠ '4' ∧ fc ≠ '8'
        · rw [if_pos h48,
            if_pos (show ¬(fc = '4' ∨ fc = '8') by
              rintro (h | h)
              · exact h48.1 h
              · exact h48.2 h)]
        · have h48' : fc = '4' ∨ fc = '8' := by
            rcases not_and_or.mp h48 with h | h
            · exact Or.inl (not_not.mp h)
            · exact Or.inr (not_not.mp h)
          rw [if_neg h48, if_neg (not_not_intro h48')]
          by_cases hall : r.SellersWallet.data.all isWalletChar = true
          · rw [if_pos hall, if_neg (not_not_intro hall)]
          · rw [if_neg hall, if_pos hall]
    · rw [if_neg hlen, if_pos hlen]

/-- The source Version stage reports an error exactly under the spec's
rule-10 condition. -/
lemma stepVersion_spec (r : MoneroRequest) : (stepVersion r).2 =
    (if r.Version ≠ "" ∧ r.Version ≠ "1" then
      some (MRErr.InvalidInput "Unsupported version.") else none) := by
  unfold stepVersion
  split
  · rename_i h
    rw [if_neg (fun hc => hc.1 h)]
  · rename_i h
    rw [if_neg (fun hc => hc.2 h)]
  · rename_i h1 h2
    rw [if_pos ⟨h1, h2⟩]

/-- Rules 5-10 of the spec cascade read none of the fields the validator
may write. -/
lemma specTail2Error_congr {r q : MoneroRequest}
    (h1 : r.Currency = q.Currency) (h2 : r.Amount = q.Amount)
    (h3 : r.DaysPerBillingCycle = q.DaysPerBillingCycle)
    (h4 : r.ChangeIndicatorURL = q.ChangeIndicatorURL)
    (h5 : r.Version = q.Version) :
    specTail2Error r = specTail2Error q := by
  unfold specTail2Error
  rw [h1, h2, h3, h4, h5]

/-- Rules 4-10 of the spec cascade depend only on the listed fields. -/
lemma specTailError_congr (env : Env) {r q : MoneroRequest}
    (h0 : r.StartDate = q.StartDate)
    (h1 : r.Currency = q.Currency) (h2 : r.Amount = q.Amount)
    (h3 : r.DaysPerBillingCycle = q.DaysPerBillingCycle)
    (h4 : r.ChangeIndicatorURL = q.ChangeIndicatorURL)
    (h5 : r.Version = q.Version) :
    specTailError env r = specTailError env q := by
  unfold specTailError
  rw [h0, specTail2Error_congr h1 h2 h3 h4 h5]

/-- The spec's rule-3 subject depends only on the PaymentID field. -/
lemma specPid_congr (env : Env) {r q : MoneroRequest}
    (h : r.PaymentID = q.PaymentID) : specPid env r = specPid env q := by
  unfold specPid
  rw [h]

/-- The Currency-to-Version block of `Validate` returns exactly the first
error of the spec's rules 5-10. -/
lemma ValidateTail2_spec (r : MoneroRequest) :
    (ValidateTail2 r).2 = specTail2Error r := by
  unfold ValidateTail2 specTail2Error stepCurrency stepAmount stepDays stepURL
  by_cases hc : r.Currency = "USD" ∨ r.Currency = "XMR"
  case neg =>
    rw [if_neg hc, if_pos hc]
  case pos =>
  rw [if_pos hc, if_neg (not_not_intro hc)]
  simp only []
  by_cases ha : r.Amount.data.any isAmountChar = true
  case neg =>
    rw [if_neg ha, if_pos ha]
  case pos =>
  rw [if_pos ha, if_neg (not_not_intro ha)]
  simp only []
  by_cases hd : r.DaysPerBillingCycle = (0 : Fin 256)
  case pos =>
    rw [if_pos hd, if_pos hd]
  case neg =>
  rw [if_neg hd, if_neg hd]
  simp only []
  by_cases hu : utf8Len r.ChangeIndicatorURL > 0
  · rw [if_pos hu]
    rcases hp : urlParse? r.ChangeIndicatorURL with _ | cbb
    · rw [if_pos ⟨hu, rfl⟩]
    · rw [if_neg (fun hx => Option.some_ne_none cbb hx.2)]
      cases cbb
      · rw [if_neg (fun hx => Bool.false_ne_true (Option.some.inj hx.2))]
        simp only []
        rw [if_neg Bool.false_ne_true]
        simp only []
        exact stepVersion_spec r
      · rw [if_pos ⟨hu, rfl⟩]
        simp only []
        rw [if_pos trivial]
  · rw [if_neg hu, if_neg (fun hx => hu hx.1), if_neg (fun hx => hu hx.1)]
    simp only []
    exact stepVersion_spec r

/-- The StartDate-to-Version block of `Validate` returns exactly the first
error of the spec's rules 4-10. -/
lemma ValidateTail_spec (env : Env) (r : MoneroRequest) :
    (ValidateTail env r).2 = specTailError env r := by
  unfold ValidateTail specTailError stepStartDate
  by_cases h0 : utf8Len r.StartDate = 0
  · rw [if_pos h0, if_neg (fun hc => hc.1 h0)]
    simp only []
    rw [ValidateTail2_spec]
    exact specTail2Error_congr rfl rfl rfl rfl rfl
  · rw [if_neg h0]
    rcases hp : chronoParseRender r.StartDate with _ | d
    · rw [if_pos ⟨h0, rfl⟩]
    · rw [if_neg (fun hc => Option.some_ne_none d hc.2)]
      simp only []
      rw [ValidateTail2_spec]
      exact specTail2Error_congr rfl rfl rfl rfl rfl

/-- The PaymentID stage of `Validate` reports an error exactly under the
spec's rule-3 conditions, phrased on the regenerated-if-empty PaymentID. -/
lemma stepPaymentID_snd_spec (env : Env) (r : MoneroRequest) :
    (stepPaymentID env r).2 =
      (if ¬ utf8Len (specPid env r) = 16 then
        some (MRErr.InvalidInput "Invalid PaymentID length.")
      else if ¬ (specPid env r).data.all isHexLower = true then
        some (MRErr.InvalidInput "Invalid character in PaymentID.")
      else none) := by
  unfold stepPaymentID specPid
  by_cases h0 : utf8Len r.PaymentID = 0
  · simp only [if_pos h0]
    obtain ⟨pid, hsome, hlen, hhex⟩ := genRandomPaymentID_spec env.rng
    have hg : GenRandomPaymentID env.rng = pid := by
      rw [genRandomPaymentID_total, hsome]
      rfl
    rw [hsome, hg]
    simp only []
    have h16 : utf8Len pid = 16 := by
      rw [← hg]
      exact genRandomPaymentID_utf8Len env.rng
    have hall : pid.data.all isHexLower = true := List.all_eq_true.mpr hhex
    rw [if_neg (not_not_intro h16), if_neg (not_not_intro hall)]
    unfold pidCharCheck
    simp only []
    rw [if_pos hall]
  · simp only [if_neg h0]
    by_cases h16 : utf8Len r.PaymentID = 16
    · rw [if_pos h16, if_neg (not_not_intro h16)]
      simp only []
      unfold pidCharCheck
      by_cases hall : r.PaymentID.data.all isHexLower = true
      · rw [if_pos hall, if_neg (not_not_intro hall)]
      · rw [if_neg hall, if_pos hall]
    · rw [if_neg h16, if_pos h16]

/-- Master lemma for C4: the error produced by `Validate` is exactly the
first error of the spec §4.1 cascade of independent rule checks. -/
lemma ValidateSt_eq_spec (env : Env) (r : MoneroRequest) :
    (ValidateSt env r).2 = specFirstError env r := by
  unfold ValidateSt specFirstError
  simp only []
  rw [stepWallet_congr (stepLabel_frame r).1, stepWallet_eq_spec]
  by_cases h0 : utf8Len r.SellersWallet = 0
  · simp only [if_pos h0]
  · simp only [if_neg h0]
    by_cases h1 : ¬(utf8Len r.SellersWallet = 95 ∨ utf8Len r.SellersWallet = 106)
    · simp only [if_pos h1]
    · simp only [if_neg h1]
      by_cases h2 : ¬(r.SellersWallet.data.head?.getD ' ' = '4' ∨
          r.SellersWallet.data.head?.getD ' ' = '8')
      · simp only [if_pos h2]
      · simp only [if_neg h2]
        by_cases h3 : ¬ r.SellersWallet.data.all isWalletChar = true
        · simp only [if_pos h3]
        · simp only [if_neg h3]
          have hp2 := stepPaymentID_snd_spec env (stepLabel r)
          rw [specPid_congr env (stepLabel_frame r).2.2.2.1] at hp2
          rcases hp : stepPaymentID env (stepLabel r) with ⟨r2, e2⟩
          rw [hp] at hp2
          simp only [] at hp2
          by_cases hpl : ¬ utf8Len (specPid env r) = 16
          · rw [if_pos hpl] at hp2
            subst hp2
            simp only [if_pos hpl]
          · rw [if_neg hpl] at hp2
            simp only [if_neg hpl]
            by_cases hph : ¬ (specPid env r).data.all isHexLower = true
            · rw [if_pos hph] at hp2
              subst hp2
              simp only [if_pos hph]
            · rw [if_neg hph] at hp2
              subst hp2
              simp only [if_neg hph]
              rw [ValidateTail_spec]
              have hfr := stepPaymentID_frame env (stepLabel r)
              rw [hp] at hfr
              simp only [] at hfr
              obtain ⟨f1, f2, f3, f4, f5, f6, f7, f8, f9⟩ := hfr
              obtain ⟨l1, l2, l3, l4, l5, l6, l7, l8, l9⟩ := stepLabel_frame r
              exact specTailError_congr env (f5.trans l5) (f3.trans l2)
                (f4.trans l3) (f6.trans l6) (f8.trans l8) (f9.trans l9)

/-- C4: validation reports the error of the first failing rule in the fixed
§4.1 rule sequence — the error returned by `Validate` equals the first
error of the spec's ordered cascade of independent rule checks; in
particular, a record with both an empty SellersWallet and a zero
DaysPerBillingCycle reports the empty-wallet error, not the
zero-billing-cycle error. -/
theorem C4_first_failing_rule (env : Env) (r : MoneroRequest) :
    (ValidateSt env r).2 = specFirstError env r ∧
    (utf8Len r.SellersWallet = 0 → r.DaysPerBillingCycle = (0 : Fin 256) →
      ValidateF env r = .error (.InvalidInput "No seller wallet specified.")) := by
  refine ⟨ValidateSt_eq_spec env r, fun hw _ => ?_⟩
  have h2 := ValidateSt_eq_spec env r
  unfold specFirstError at h2
  rw [if_pos hw] at h2
  unfold ValidateF
  rcases hv : ValidateSt env r with ⟨rv, e⟩
  rw [hv] at h2
  simp only [] at h2
  subst h2
  rfl

/-- Sample record with both an empty SellersWallet and a zero
DaysPerBillingCycle. -/
def exRecBoth : MoneroRequest :=
  { exRec with SellersWallet := "", DaysPerBillingCycle := (0 : Fin 256) }

/-- Witness for C4: on a concrete record with empty SellersWallet and zero
DaysPerBillingCycle, `Validate` reports the empty-wallet error. -/
theorem C4_witness :
    utf8Len exRecBoth.SellersWallet = 0 ∧
    exRecBoth.DaysPerBillingCycle = (0 : Fin 256) ∧
    ValidateF exEnv exRecBoth =
      .error (.InvalidInput "No seller wallet specified.") :=
  ⟨by decide, by decide,
    (C4_first_failing_rule exEnv exRecBoth).2 (by decide) (by decide)⟩

/-- C5 (amended): for a record that passes the earlier rules, validation
fails with the invalid-amount error exactly when Amount contains no
character of the class of the regex `[\d,.]+` — no Unicode decimal digit
(`\p{Nd}`, the crate's `\d`), comma or period.  A digit is not required:
an Amount consisting of a lone separator is accepted — see the
counterexample. -/
theorem C5_amended_amount_class (env : Env) (r : MoneroRequest)
    (hW : stepWallet r = none)
    (hP : utf8Len r.PaymentID = 0 ∨
      (utf8Len r.PaymentID = 16 ∧ r.PaymentID.data.all isHexLower = true))
    (hS : utf8Len r.StartDate = 0 ∨ isCanonicalDate r.StartDate = true)
    (hC : r.Currency = "USD" ∨ r.Currency = "XMR") :
    ValidateF env r = .error (.InvalidInput "Invalid Amount.") ↔
      r.Amount.data.any isAmountChar = false := by
  have hiff : (ValidateF env r = .error (.InvalidInput "Invalid Amount.")) ↔
      (ValidateSt env r).2 = some (.InvalidInput "Invalid Amount.") := by
    unfold ValidateF
    rcases hv : ValidateSt env r with ⟨rv, _ | e2⟩ <;> simp
  rw [hiff, ValidateSt_eq_spec]
  unfold specFirstError
  rw [stepWallet_eq_spec] at hW
  by_cases h0 : utf8Len r.SellersWallet = 0
  · rw [if_pos h0] at hW
    exact Option.noConfusion hW
  · rw [if_neg h0] at hW
    rw [if_neg h0]
    by_cases h1 : ¬(utf8Len r.SellersWallet = 95 ∨ utf8Len r.SellersWallet = 106)
    · rw [if_pos h1] at hW
      exact Option.noConfusion hW
    · rw [if_neg h1] at hW
      rw [if_neg h1]
      by_cases h2 : ¬(r.SellersWallet.data.head?.getD ' ' = '4' ∨
          r.SellersWallet.data.head?.getD ' ' = '8')
      · rw [if_pos h2] at hW
        exact Option.noConfusion hW
      · rw [if_neg h2] at hW
        rw [if_neg h2]
        by_cases h3 : ¬ r.SellersWallet.data.all isWalletChar = true
        · rw [if_pos h3] at hW
          exact Option.noConfusion hW
        · rw [if_neg h3]
          have hpl : utf8Len (specPid env r) = 16 := by
            unfold specPid
            rcases hP with h | ⟨h16, _⟩
            · rw [if_pos h]
              exact genRandomPaymentID_utf8Len env.rng
            · rw [if_neg (by omega)]
              exact h16
          have hph : (specPid env r).data.all isHexLower = true := by
            unfold specPid
            rcases hP with h | ⟨h16, hall⟩
            · rw [if_pos h]
              obtain ⟨pid, hsome, hlen, hhex⟩ := genRandomPaymentID_spec env.rng
              have hg : GenRandomPaymentID env.rng = pid := by
                rw [genRandomPaymentID_total, hsome]
                rfl
              rw [hg]
              exact List.all_eq_true.mpr hhex
            · rw [if_neg (by omega)]
              exact hall
          rw [if_neg (not_not_intro hpl), if_neg (not_not_intro hph)]
          unfold specTailError
          have hsd : ¬(utf8Len r.StartDate ≠ 0 ∧
              chronoParseRender r.StartDate = none) := by
            rcases hS with h | h
            · exact fun hc => hc.1 h
            · intro hc
              have hpr : chronoParseRender r.StartDate = some r.StartDate := by
                unfold chronoParseRender
                rw [if_pos h]
              rw [hpr] at hc
              exact Option.noConfusion hc.2
          rw [if_neg hsd]
          unfold specTail2Error
          rw [if_neg (not_not_intro hC)]
          by_cases hA : r.Amount.data.any isAmountChar = true
          · rw [if_neg (not_not_intro hA)]
            constructor
            · intro hcontra
              exfalso
              by_cases hd : r.DaysPerBillingCycle = (0 : Fin 256)
              · rw [if_pos hd] at hcontra
                exact absurd hcontra (by decide)
              · rw [if_neg hd] at hcontra
                by_cases hu1 : utf8Len r.ChangeIndicatorURL > 0 ∧
                    urlParse? r.ChangeIndicatorURL = none
                · rw [if_pos hu1] at hcontra
                  exact absurd hcontra (by decide)
                · rw [if_neg hu1] at hcontra
                  by_cases hu2 : utf8Len r.ChangeIndicatorURL > 0 ∧
                      urlParse? r.ChangeIndicatorURL = some true
                  · rw [if_pos hu2] at hcontra
                    exact absurd hcontra (by decide)
                  · rw [if_neg hu2] at hcontra
                    by_cases hv : r.Version ≠ "" ∧ r.Version ≠ "1"
                    · rw [if_pos hv] at hcontra
                      exact absurd hcontra (by decide)
                    · rw [if_neg hv] at hcontra
                      exact Option.noConfusion hcontra
            · intro hfalse
              rw [hA] at hfalse
              exact Bool.noConfusion hfalse
          · have hA2 : r.Amount.data.any isAmountChar = false := by
              cases hb : r.Amount.data.any isAmountChar
              · rfl
              · exact absurd hb hA
            rw [if_pos hA]
            simp [hA2]

/-- Witness record for the amended C5: Amount `"x"` has no character of
the regex class at all. -/
def exRecX : MoneroRequest := { exRec with Amount := "x" }

/-- Witness for the amended C5, in both directions: Amount `"x"` has no
class character and errors; the accepted `exRecComma` does not produce the
invalid-amount error. -/
theorem C5_witness :
    stepWallet exRecX = none ∧
    (utf8Len exRecX.PaymentID = 0 ∨ (utf8Len exRecX.PaymentID = 16 ∧
      exRecX.PaymentID.data.all isHexLower = true)) ∧
    (utf8Len exRecX.StartDate = 0 ∨ isCanonicalDate exRecX.StartDate = true) ∧
    (exRecX.Currency = "USD" ∨ exRecX.Currency = "XMR") ∧
    exRecX.Amount.data.any isAmountChar = false ∧
    ValidateF exEnv exRecX = .error (.InvalidInput "Invalid Amount.") ∧
    ¬ ValidateF exEnv exRecComma = .error (.InvalidInput "Invalid Amount.") :=
  ⟨by decide, by decide, by decide, by decide, by decide,
    (C5_amended_amount_class exEnv exRecX (by decide) (by decide) (by decide)
      (by decide)).mpr (by decide),
    fun h => by
      have hq := (C5_amended_amount_class exEnv exRecComma (by decide)
        (by decide) (by decide) (by decide)).mp h
      exact absurd hq (by decide)⟩
